import Mathlib

/-!
# Verification of the bgate-unix deduplication engine

Shallow embedding of `src/bgate_unix/engine.py` and `src/bgate_unix/db.py`.

* File paths in the durable-move and journal-recovery models are lists of
  components (`List String`), root = `[]`; `parentDir` is `Path.parent`.
* File contents are byte lists (`List Nat`); the xxh64 / xxh128 hash
  primitives are black boxes, so theorems are stated about the exact byte
  stream fed to the hasher.
* The SQLite index is an explicit record of association lists
  (`EngState`); each db.py operation becomes a pure state transformer with
  the same conflict semantics (`INSERT ... ON CONFLICT DO NOTHING` with
  `rowcount` as the returned Bool).
* Fallible operations return `Outcome`; Python exceptions are `Outcome.exn`
  carrying the message.
* Nondeterministic externals (uuid-based destination naming, the success of
  an `os.link`-based move, path canonicalisation) are oracle functions
  collected in `Oracles`.
-/

/-- `FRINGE_SIZE = 64 * 1024` from engine.py. -/
def FRINGE_SIZE : Nat := 64 * 1024

/-- `CHUNK_SIZE = 256 * 1024` from engine.py. -/
def CHUNK_SIZE : Nat := 256 * 1024

/-- `actual_size.to_bytes(8, "little")`: 8-byte little-endian encoding. -/
def toLE8 (n : Nat) : List Nat :=
  (List.range 8).map (fun i => n / 256 ^ i % 256)

/-- `_compute_fringe_hash` (engine.py 187-224), as the byte stream fed to the
`xxhash.xxh64` hasher.  The file is opened, the authoritative size is taken
from the open descriptor (`f.seek(0, os.SEEK_END)` = `content.length`), the
first 64 KiB is hashed, then, only when the size exceeds 64 KiB, a 64 KiB
read starting at `max(0, actual_size - FRINGE_SIZE)`, then the 8-byte
little-endian size.  The second argument models the deprecated `_file_size`
parameter, which the body never reads. -/
def compute_fringe_stream (content : List Nat) (_fileSizeArg : Nat) : List Nat :=
  let actualSize := content.length
  let firstChunk := content.take FRINGE_SIZE
  firstChunk
    ++ (if actualSize > FRINGE_SIZE then
          (content.drop (max 0 (actualSize - FRINGE_SIZE))).take FRINGE_SIZE
        else [])
    ++ toLE8 actualSize

/-- `_compute_fringe_hash` proper: the xxh64 black box applied to the stream. -/
def compute_fringe_hash (xxh64 : List Nat → Nat) (content : List Nat)
    (fileSizeArg : Nat) : Nat :=
  xxh64 (compute_fringe_stream content fileSizeArg)

/- ## Durable move primitive (`atomic_move`, engine.py 128-184) -/

/-- `Path.parent` on a component list; the parent of the root is the root. -/
def parentDir (p : List String) : List String := p.dropLast

/-- The `while not curr.exists()` loop of `atomic_move` (engine.py 146-153):
collect the directories that need creation, starting at `dest.parent`,
walking upward, stopping at the first existing directory (or at the root,
where `curr.parent == curr`). The result lists the deepest directory first,
exactly like `dirs_to_sync_parents_of`. -/
def collectNewDirsGo (ex : List String → Bool) :
    Nat → List String → List (List String)
  | 0, _ => []
  | fuel + 1, curr =>
    if ex curr then []
    else
      match curr with
      | [] => [[]]
      | c :: cs => (c :: cs) :: collectNewDirsGo ex fuel (c :: cs).dropLast

/-- Entry point: each loop step strips one component, so `curr.length + 1`
steps always suffice and the fuel-0 case is unreachable. -/
def collectNewDirs (ex : List String → Bool) (curr : List String) :
    List (List String) :=
  collectNewDirsGo ex (curr.length + 1) curr

/-- One filesystem operation issued by `atomic_move`. -/
inductive MoveOp where
  | mkdirParents (p : List String)
  | linkOp (src dst : List String)
  | fsyncDirOp (p : List String)
  | unlinkOp (p : List String)
deriving DecidableEq, Repr

/-- The operation sequence of a fully successful `atomic_move(src, dest)`
(engine.py 156-184): `mkdir -p` of `dest.parent` when directories are
missing, the hard link, then `for d in reversed(dirs_to_sync_parents_of):
_fsync_dir(d.parent)`, then `_fsync_dir(parent)`, `src.unlink()`, and
`_fsync_dir(src.parent)`. -/
def atomic_move_ops (ex : List String → Bool) (src dst : List String) :
    List MoveOp :=
  let parent := parentDir dst
  let dirs := collectNewDirs ex parent
  (if dirs.isEmpty then [] else [MoveOp.mkdirParents parent])
    ++ [MoveOp.linkOp src dst]
    ++ dirs.reverse.map (fun d => MoveOp.fsyncDirOp (parentDir d))
    ++ [MoveOp.fsyncDirOp parent, MoveOp.unlinkOp src,
        MoveOp.fsyncDirOp (parentDir src)]

/-- Execute an operation list against an fsync-failure oracle: operations run
in order and the procedure aborts at the first directory fsync that fails
(`_fsync_dir` raises, nothing after it runs).  Returns the operations that
were attempted. -/
def runOps (fsyncOk : List String → Bool) : List MoveOp → List MoveOp
  | [] => []
  | MoveOp.fsyncDirOp p :: rest =>
      if fsyncOk p then MoveOp.fsyncDirOp p :: runOps fsyncOk rest
      else [MoveOp.fsyncDirOp p]
  | op :: rest => op :: runOps fsyncOk rest

/-- The directories fsynced by an operation list, in order. -/
def fsyncTargets (ops : List MoveOp) : List (List String) :=
  ops.filterMap (fun op =>
    match op with
    | MoveOp.fsyncDirOp p => some p
    | _ => none)

/-- The fsync order asserted by the claim: the parent of every newly created
ancestor from the deepest upward, then `dest.parent`, then `src.parent`.
This follows the spec's words and is compared against `atomic_move_ops`. -/
def claimedFsyncOrder (ex : List String → Bool) (src dst : List String) :
    List (List String) :=
  (collectNewDirs ex (parentDir dst)).map (fun d => parentDir d)
    ++ [parentDir dst, parentDir src]

/- ## Index store (db.py) and engine state -/

/-- Journal phases (move_journal.phase). -/
inductive Phase where
  | planned
  | moving
  | completed
  | failed
deriving DecidableEq, Repr

/-- `DedupeResult` from engine.py. -/
inductive DedupeResult where
  | unique
  | duplicate
  | skipped
deriving DecidableEq, Repr

/-- `ProcessResult` from engine.py (the `tags` payload is opaque to every
claim and is omitted). -/
structure ProcessResult where
  path : String
  originalPath : String
  result : DedupeResult
  tier : Nat
  storedPath : Option String := none
  duplicateOf : Option String := none
  error : Option String := none
deriving DecidableEq, Repr

/-- A move_journal row. -/
structure JEntry where
  id : Nat
  source : String
  dest : String
  size : Nat
  phase : Phase
deriving DecidableEq, Repr

/-- The database relations of db.py plus the set of files on disk.  `files`
is the multiset of paths that currently exist; `nextId` is the journal's
AUTOINCREMENT counter. -/
structure EngState where
  files : List String
  sizes : List Nat
  fringes : List (Nat × Nat × String)
  fulls : List (Nat × String)
  orphans : List (String × String × Nat)
  journal : List JEntry
  nextId : Nat
deriving DecidableEq, Repr

/-- `size_exists` (db.py 206-210). -/
def size_exists (st : EngState) (s : Nat) : Bool := st.sizes.contains s

/-- `add_size` (db.py 212-216): INSERT OR IGNORE. -/
def add_size (st : EngState) (s : Nat) : EngState :=
  if st.sizes.contains s then st else { st with sizes := s :: st.sizes }

/-- `fringe_lookup` (db.py 219-224): lookup by composite key. -/
def fringe_lookup (st : EngState) (h s : Nat) : Option String :=
  match st.fringes.find? (fun e => e.1 == h && e.2.1 == s) with
  | some e => some e.2.2
  | none => none

/-- `add_fringe` (db.py 226-235): ON CONFLICT DO NOTHING; returns
`rowcount > 0`. -/
def add_fringe (st : EngState) (h s : Nat) (p : String) : Bool × EngState :=
  match fringe_lookup st h s with
  | some _ => (false, st)
  | none => (true, { st with fringes := (h, s, p) :: st.fringes })

/-- `full_lookup` (db.py 238-242). -/
def full_lookup (st : EngState) (h : Nat) : Option String :=
  match st.fulls.find? (fun e => e.1 == h) with
  | some e => some e.2
  | none => none

/-- `add_full` (db.py 244-253): ON CONFLICT DO NOTHING; a `false` return is
the duplicate-conflict signal. -/
def add_full (st : EngState) (h : Nat) (p : String) : Bool × EngState :=
  match full_lookup st h with
  | some _ => (false, st)
  | none => (true, { st with fulls := (h, p) :: st.fulls })

/-- `journal_move` (db.py 307-315): insert a phase=planned row, return id. -/
def journal_move (st : EngState) (src dst : String) (size : Nat) :
    Nat × EngState :=
  (st.nextId,
   { st with
      journal := { id := st.nextId, source := src, dest := dst, size := size,
                   phase := Phase.planned } :: st.journal
      nextId := st.nextId + 1 })

/-- `update_move_phase` (db.py 317-322). -/
def update_move_phase (st : EngState) (jid : Nat) (ph : Phase) : EngState :=
  { st with
      journal := st.journal.map (fun e =>
        if e.id == jid then { e with phase := ph } else e) }

/-- `add_orphan` (db.py 260-273): idempotent by orphan_path. -/
def add_orphan (st : EngState) (orig orph : String) (size : Nat) : EngState :=
  if st.orphans.any (fun o => o.2.1 == orph) then st
  else { st with orphans := (orig, orph, size) :: st.orphans }

/-- The filesystem effect of a successful `atomic_move(src, dst)`: `dst`
exists, `src` no longer does. -/
def applyMove (st : EngState) (src dst : String) : EngState :=
  { st with files := dst :: st.files.erase src }

/- ## Registration pipeline (engine.py `_register_unique` and helpers) -/

/-- Result of an attempted `atomic_move` as seen by `_register_unique`:
success, `FileExistsError`, or any other exception (mkdir failure, EXDEV,
...) carrying its message. -/
inductive MoveRes where
  | ok
  | eexist
  | err (msg : String)
deriving DecidableEq, Repr

/-- Outcome of a fallible computation: normal value or a raised exception
with its message. -/
inductive Outcome (α : Type) where
  | ok (a : α)
  | exn (msg : String)
deriving DecidableEq, Repr

/-- Config: `processing_dir`, the optional content-store root. -/
structure Config where
  processingDir : Option String
deriving DecidableEq, Repr

/-- External oracles: the two digest primitives per path, `Path.resolve`,
the shard/name generation of engine.py 473-485 (uuid-dependent, keyed by
the optional known full hash and the attempt number), and the outcome of
`atomic_move` for a (src, dest) pair. -/
structure Oracles where
  fringeHash : String → Nat
  fullHash : String → Nat
  resolve : String → String
  destFor : Option Nat → Nat → String
  moveRes : String → String → MoveRes

/-- `max_retries = 5` (engine.py 467). -/
def maxRetries : Nat := 5

/-- Number of digest computations performed (fringe, full). -/
structure HashCount where
  fringe : Nat
  full : Nat
deriving DecidableEq, Repr

/-- Phases 1 and 2 of `_register_unique` (engine.py 469-539): the naming /
journal / move retry loop.  Each attempt journals the intent
(planned → moving, commit), then attempts the move.  `FileExistsError`
marks the row failed and retries with a fresh name (raising at the last
attempt); any other failure marks the row failed and raises.  On success
returns the destination path and journal id.  The fuel equals the retries
remaining, so the fuel-0 case is unreachable from `maxRetries`. -/
def phase12go (orc : Oracles) (root fp : String) (size : Nat)
    (fuOpt : Option Nat) (st : EngState) (attempt : Nat) :
    Nat → Outcome (String × Nat) × EngState
  | 0 => (Outcome.exn "FileExistsError", st)
  | fuel + 1 =>
    let dest := root ++ "/" ++ orc.destFor fuOpt attempt
    let (jid, st1) := journal_move st fp dest size
    let st2 := update_move_phase st1 jid Phase.moving
    match orc.moveRes fp dest with
    | MoveRes.ok => (Outcome.ok (dest, jid), applyMove st2 fp dest)
    | MoveRes.eexist =>
        let st3 := update_move_phase st2 jid Phase.failed
        if attempt == maxRetries - 1 then (Outcome.exn "FileExistsError", st3)
        else phase12go orc root fp size fuOpt st3 (attempt + 1) fuel
    | MoveRes.err m =>
        (Outcome.exn m, update_move_phase st2 jid Phase.failed)

/-- `_handle_move_rollback` (engine.py 618-673): if the destination exists,
journal a compensating reverse move (planned → moving), attempt it, mark the
compensating row completed on success or failed plus an orphan-registry row
on failure; finally mark the original journal row failed. -/
def handle_move_rollback (orc : Oracles) (st : EngState) (fp : String)
    (destOpt : Option String) (size : Nat) (jidOpt : Option Nat) : EngState :=
  let st' :=
    match destOpt with
    | some dest =>
      if st.files.contains dest then
        let (rjid, s1) := journal_move st dest fp size
        let s2 := update_move_phase s1 rjid Phase.moving
        match orc.moveRes dest fp with
        | MoveRes.ok =>
            update_move_phase (applyMove s2 dest fp) rjid Phase.completed
        | _ =>
            let s3 := update_move_phase s2 rjid Phase.failed
            add_orphan s3 fp dest size
      else st
    | none => st
  match jidOpt with
  | some j => update_move_phase st' j Phase.failed
  | none => st'

/-- `_handle_duplicate_conflict` (engine.py 596-616): roll the move back,
then return a DUPLICATE result pointing at `full_lookup(full_hash)`. -/
def handle_duplicate_conflict (orc : Oracles) (st : EngState) (fp : String)
    (destOpt : Option String) (fu : Nat) (size : Nat) (jidOpt : Option Nat) :
    ProcessResult × EngState :=
  let st' := handle_move_rollback orc st fp destOpt size jidOpt
  ({ path := fp, originalPath := fp, result := DedupeResult.duplicate,
     tier := 3, duplicateOf := full_lookup st' fu }, st')

/-- Phase 3 of `_register_unique` (engine.py 543-594): inside a transaction,
mark the journal row completed, compute any digest not yet known from the
storage path, insert size and fringe rows, then `add_full`.  A conflict
rolls the whole transaction back (to the pre-phase-3 state) and enters the
duplicate-conflict compensator; otherwise the transaction commits and the
UNIQUE result is returned.  Also returns the digests computed here. -/
def phase3 (orc : Oracles) (st : EngState) (storagePath : String)
    (destOpt : Option String) (jidOpt : Option Nat) (fp : String)
    (size : Nat) (frOpt fuOpt : Option Nat) (tier : Nat) :
    Outcome ProcessResult × EngState × HashCount :=
  let st1 := match jidOpt with
    | some j => update_move_phase st j Phase.completed
    | none => st
  let fr := frOpt.getD (orc.fringeHash storagePath)
  let fu := fuOpt.getD (orc.fullHash storagePath)
  let cnt : HashCount :=
    ⟨if frOpt.isNone then 1 else 0, if fuOpt.isNone then 1 else 0⟩
  let st2 := add_size st1 size
  let st3 := (add_fringe st2 fr size storagePath).2
  match add_full st3 fu storagePath with
  | (true, st4) =>
      (Outcome.ok
        { path := destOpt.getD fp, originalPath := fp,
          result := DedupeResult.unique, tier := tier,
          storedPath := destOpt }, st4, cnt)
  | (false, _) =>
      let r := handle_duplicate_conflict orc st fp destOpt fu size jidOpt
      (Outcome.ok r.1, r.2, cnt)

/-- `_register_unique` (engine.py 448-594): with a content store, run the
phase-1/2 loop then phase 3 on the destination; without one, the original
path is the storage path and there is no journal entry or move. -/
def register_unique (orc : Oracles) (cfg : Config) (st : EngState)
    (fp : String) (size : Nat) (frOpt fuOpt : Option Nat) (tier : Nat) :
    Outcome ProcessResult × EngState × HashCount :=
  match cfg.processingDir with
  | some root =>
    match phase12go orc root fp size fuOpt st 0 maxRetries with
    | (Outcome.exn m, st') => (Outcome.exn m, st', ⟨0, 0⟩)
    | (Outcome.ok (dest, jid), st') =>
        phase3 orc st' dest (some dest) (some jid) fp size frOpt fuOpt tier
  | none => phase3 orc st fp none none fp size frOpt fuOpt tier

/-- `_process_file` (engine.py 391-446), instrumented with the digests
computed during classification and during registration (returned as the
two `HashCount`s). -/
def process_file_core (orc : Oracles) (cfg : Config) (st : EngState)
    (fp : String) (size : Nat) :
    Outcome ProcessResult × EngState × HashCount × HashCount :=
  if size == 0 then
    (Outcome.ok { path := fp, originalPath := fp,
                  result := DedupeResult.skipped, tier := 0 },
     st, ⟨0, 0⟩, ⟨0, 0⟩)
  else if !size_exists st size then
    let r := register_unique orc cfg st fp size none none 1
    (r.1, r.2.1, ⟨0, 0⟩, r.2.2)
  else
    let fr := orc.fringeHash fp
    match fringe_lookup st fr size with
    | none =>
      let r := register_unique orc cfg st fp size (some fr) none 2
      (r.1, r.2.1, ⟨1, 0⟩, r.2.2)
    | some _ =>
      let fu := orc.fullHash fp
      match full_lookup st fu with
      | none =>
        let r := register_unique orc cfg st fp size (some fr) (some fu) 3
        (r.1, r.2.1, ⟨1, 1⟩, r.2.2)
      | some existing =>
        if orc.resolve existing == orc.resolve fp then
          (Outcome.ok { path := fp, originalPath := fp,
                        result := DedupeResult.unique, tier := 3,
                        storedPath := some fp },
           st, ⟨1, 1⟩, ⟨0, 0⟩)
        else
          (Outcome.ok { path := fp, originalPath := fp,
                        result := DedupeResult.duplicate, tier := 3,
                        duplicateOf := some existing },
           st, ⟨1, 1⟩, ⟨0, 0⟩)

/-- The SKIPPED result built by `process_file`'s exception handlers
(engine.py 372-389). -/
def skipped_result (fp msg : String) : ProcessResult :=
  { path := fp, originalPath := fp, result := DedupeResult.skipped,
    tier := 0, error := some msg }

/-- `process_file` (engine.py 338-389), on a connected engine: missing file
and validation failures become SKIPPED results; the core body's exceptions
are caught and converted to SKIPPED results carrying the message. -/
def process_file (fileExists : Bool) (validationError : Option String)
    (core : Outcome ProcessResult) (fp : String) : ProcessResult :=
  if !fileExists then skipped_result fp "File does not exist"
  else
    match validationError with
    | some e => skipped_result fp ("Validation failed: " ++ e)
    | none =>
      match core with
      | Outcome.ok r => r
      | Outcome.exn m => skipped_result fp m

/- ## Journal reconciliation (`_recover_from_journal`, engine.py 804-894) -/

/-- A recovery action performed while reconciling a `moving` journal row. -/
inductive RecAct where
  | linkAct (dst src : List String)
  | fsyncAct (p : List String)
  | unlinkAct (p : List String)
  | logAct
deriving DecidableEq, Repr

/-- The filesystem as recovery sees it: the set of existing paths plus the
cross-device oracle for `os.link`. -/
structure RecFS where
  files : List (List String)
  crossDev : List String → List String → Bool

/-- Outcome of the unconditional `os.link(dest, source)` attempt, dispatched
on the filesystem state (no pre-existence checks): a missing `dest` is
`ENOENT` (`FileNotFoundError`), an already-present `source` is `EEXIST`
(`FileExistsError`), a cross-device pair is `EXDEV`, otherwise the link
succeeds and `source` comes into existence. -/
inductive LinkOut where
  | ok
  | eexist
  | enoent
  | exdev
deriving DecidableEq, Repr

/-- `os.link(dest, source)` against `RecFS`. -/
def tryLink (fs : RecFS) (dst src : List String) : LinkOut × RecFS :=
  if !fs.files.contains dst then (LinkOut.enoent, fs)
  else if fs.files.contains src then (LinkOut.eexist, fs)
  else if fs.crossDev dst src then (LinkOut.exdev, fs)
  else (LinkOut.ok, { fs with files := src :: fs.files })

/-- Rollback of one `moving` journal entry (engine.py 829-893): link the
dest back to the source, fsync the source's parent, unlink dest, fsync the
dest's parent, then mark the entry failed; on `FileExistsError` just remove
dest (suppressing a missing file) and mark failed; on `FileNotFoundError`
mark failed; on `EXDEV` log and leave the entry's phase untouched.  Returns
the attempted actions, the filesystem after them, and the phase update
(`none` = left incomplete). -/
def recover_moving (fs : RecFS) (src dst : List String) :
    List RecAct × RecFS × Option Phase :=
  match tryLink fs dst src with
  | (LinkOut.ok, fs1) =>
      ([RecAct.linkAct dst src, RecAct.fsyncAct (parentDir src),
        RecAct.unlinkAct dst, RecAct.fsyncAct (parentDir dst)],
       { fs1 with files := fs1.files.erase dst }, some Phase.failed)
  | (LinkOut.eexist, fs1) =>
      ([RecAct.linkAct dst src, RecAct.unlinkAct dst,
        RecAct.fsyncAct (parentDir dst)],
       { fs1 with files := fs1.files.erase dst }, some Phase.failed)
  | (LinkOut.enoent, fs1) =>
      ([RecAct.linkAct dst src], fs1, some Phase.failed)
  | (LinkOut.exdev, fs1) =>
      ([RecAct.linkAct dst src, RecAct.logAct], fs1, none)

/-- A journal row as read back by `get_incomplete_journal_entries`, with
component-list paths for the filesystem model. -/
structure RecEntry where
  id : Nat
  source : List String
  dest : List String
  phase : Phase
deriving DecidableEq, Repr

/-- `_recover_from_journal`'s loop over the incomplete entries: `planned`
rows are marked failed outright; `moving` rows run `recover_moving`;
anything else is not returned by `get_incomplete_journal_entries`.  Returns
each handled entry's id with its actions and phase update, threading the
filesystem left to right. -/
def recover_from_journal (fs : RecFS) :
    List RecEntry → List (Nat × List RecAct × Option Phase) × RecFS
  | [] => ([], fs)
  | e :: es =>
    if e.phase == Phase.planned then
      let rest := recover_from_journal fs es
      ((e.id, [], some Phase.failed) :: rest.1, rest.2)
    else if e.phase == Phase.moving then
      let r := recover_moving fs e.source e.dest
      let rest := recover_from_journal r.2.1 es
      ((e.id, r.1, r.2.2) :: rest.1, rest.2)
    else
      recover_from_journal fs es

/- ## Emergency-orphan import (`_import_emergency_orphans`, engine.py
737-802) -/

/-- `line.strip()`: drop leading and trailing whitespace (executable model
of Python's `str.strip`, used instead of `String.trim` so that concrete
side-log lines evaluate inside the kernel). -/
def stripLine (s : String) : String :=
  String.mk
    (((s.data.dropWhile Char.isWhitespace).reverse.dropWhile
        Char.isWhitespace).reverse)

/-- One parsed emergency-orphan record (the fields the import uses). -/
structure OrphanRec where
  originalPath : String
  orphanPath : String
  fileSize : Nat
deriving DecidableEq, Repr

/-- The per-line loop of `_import_emergency_orphans`: strip each line, skip
blanks, parse (the JSON / legacy pipe-delimited parsing is the external
`parse` function; `none` models every `ValueError`/`KeyError`/
`JSONDecodeError` and short legacy lines), and import records whose orphan
path still exists; parse failures keep the stripped line.  Returns
`(imported, remaining_lines, rows inserted via add_orphan)` in encounter
order. -/
def import_orphan_lines (parse : String → Option OrphanRec)
    (onDisk : String → Bool) :
    List String → Nat × List String × List OrphanRec
  | [] => (0, [], [])
  | l :: ls =>
    let t := stripLine l
    if t = "" then import_orphan_lines parse onDisk ls
    else
      match parse t with
      | none =>
        let rest := import_orphan_lines parse onDisk ls
        (rest.1, t :: rest.2.1, rest.2.2)
      | some o =>
        if onDisk o.orphanPath then
          let rest := import_orphan_lines parse onDisk ls
          (rest.1 + 1, rest.2.1, o :: rest.2.2)
        else import_orphan_lines parse onDisk ls

/-- What happens to the side-log file afterwards (engine.py 776-797). -/
inductive SideLogAct where
  | deleteFile
  | fsyncDirAct
  | writeTmp (ls : List String)
  | fsyncTmpFile
  | renameTmpOverOriginal
deriving DecidableEq, Repr

/-- The side-log file epilogue: if nothing remains and something was
imported, delete the file and fsync the directory; else if lines remain,
write them to a sibling `.tmp`, fsync the file, fsync the directory, rename
over the original, and fsync the directory again; otherwise leave the file
alone. -/
def import_file_epilogue (imported : Nat) (remaining : List String) :
    List SideLogAct :=
  if remaining.isEmpty && imported > 0 then
    [SideLogAct.deleteFile, SideLogAct.fsyncDirAct]
  else if !remaining.isEmpty then
    [SideLogAct.writeTmp remaining, SideLogAct.fsyncTmpFile,
     SideLogAct.fsyncDirAct, SideLogAct.renameTmpOverOriginal,
     SideLogAct.fsyncDirAct]
  else []

/- ## Theorems -/

/-- C6: the fringe digest hashes the first 64 KiB, then (only when the
descriptor length exceeds 64 KiB) the 64 KiB read starting at
`max(0, length - 64 KiB)`, then the 8-byte little-endian length; a file of
exactly 64 KiB hashes only the head window; for lengths in
(64 KiB, 128 KiB) the head and the tail windows overlap (the tail read
starts strictly inside the head window and reaches the end of the file);
and the digest depends only on the length taken from the open descriptor,
never on the stat-derived size argument. -/
theorem claim_c6 (h : List Nat → Nat) (content : List Nat) (a b : Nat) :
    compute_fringe_hash h content a =
      h (content.take FRINGE_SIZE
          ++ (if FRINGE_SIZE < content.length then
                (content.drop (content.length - FRINGE_SIZE)).take FRINGE_SIZE
              else [])
          ++ toLE8 content.length)
  ∧ compute_fringe_hash h content a = compute_fringe_hash h content b
  ∧ (content.length = FRINGE_SIZE →
      compute_fringe_stream content a = content ++ toLE8 FRINGE_SIZE)
  ∧ (FRINGE_SIZE < content.length → content.length < 2 * FRINGE_SIZE →
      compute_fringe_stream content a =
        content.take FRINGE_SIZE
          ++ content.drop (content.length - FRINGE_SIZE)
          ++ toLE8 content.length
      ∧ content.length - FRINGE_SIZE < FRINGE_SIZE) := by
  refine ⟨?_, rfl, ?_, ?_⟩
  · simp [compute_fringe_hash, compute_fringe_stream, Nat.zero_max]
  · intro hl
    simp [compute_fringe_stream, hl, List.take_of_length_le (Nat.le_of_eq hl)]
  · intro h1 h2
    constructor
    · have hdrop : (content.drop (content.length - FRINGE_SIZE)).take
          FRINGE_SIZE = content.drop (content.length - FRINGE_SIZE) := by
        apply List.take_of_length_le
        rw [List.length_drop]
        omega
      simp [compute_fringe_stream, h1, Nat.zero_max, hdrop]
    · omega

/-- Witness for C6: a file of exactly 64 KiB hashes head window and length
only, and the deprecated size argument is ignored. -/
theorem claim_c6_witness :
    (List.replicate 65536 (0 : Nat)).length = FRINGE_SIZE
  ∧ compute_fringe_stream (List.replicate 65536 (0 : Nat)) 3 =
      List.replicate 65536 (0 : Nat) ++ toLE8 FRINGE_SIZE
  ∧ compute_fringe_hash (fun l => l.length) (List.replicate 65536 (0 : Nat)) 3
      = compute_fringe_hash (fun l => l.length)
          (List.replicate 65536 (0 : Nat)) 99 := by
  have hlen : (List.replicate 65536 (0 : Nat)).length = FRINGE_SIZE := by
    rw [List.length_replicate]
    rfl
  exact ⟨hlen,
    (claim_c6 (fun l => l.length) (List.replicate 65536 (0 : Nat)) 3 99).2.2.1
      hlen,
    (claim_c6 (fun l => l.length) (List.replicate 65536 (0 : Nat)) 3 99).2.1⟩

/- ## C1: fsync ordering of the durable move -/

lemma fsyncTargets_append (l1 l2 : List MoveOp) :
    fsyncTargets (l1 ++ l2) = fsyncTargets l1 ++ fsyncTargets l2 := by
  simp [fsyncTargets]

lemma fsyncTargets_map_fsync (f : List String → List String)
    (l : List (List String)) :
    fsyncTargets (l.map (fun d => MoveOp.fsyncDirOp (f d))) = l.map f := by
  induction l with
  | nil => rfl
  | cons d rest ih => simp [fsyncTargets] at ih ⊢; exact ih

lemma unlink_mem_runOps (f : List String → Bool) (s : List String) :
    ∀ (l1 l2 : List MoveOp), MoveOp.unlinkOp s ∈ runOps f (l1 ++ l2) →
      MoveOp.unlinkOp s ∈ l1 ∨ ∀ p, MoveOp.fsyncDirOp p ∈ l1 → f p = true := by
  intro l1
  induction l1 with
  | nil =>
    intro l2 _
    right
    intro p hp
    cases hp
  | cons op rest ih =>
    intro l2 h
    match op with
    | MoveOp.fsyncDirOp q =>
      by_cases hf : f q
      · rw [List.cons_append] at h
        simp only [runOps, hf, if_true] at h
        rcases List.mem_cons.mp h with h1 | h1
        · cases h1
        · rcases ih l2 h1 with h2 | h2
          · exact Or.inl (List.mem_cons_of_mem _ h2)
          · right
            intro p hp
            rcases List.mem_cons.mp hp with h3 | h3
            · cases h3; exact hf
            · exact h2 p h3
      · rw [List.cons_append] at h
        simp only [runOps, hf, if_false] at h
        rcases List.mem_cons.mp h with h1 | h1
        · cases h1
        · cases h1
    | MoveOp.mkdirParents q =>
      rw [List.cons_append] at h
      simp only [runOps] at h
      rcases List.mem_cons.mp h with h1 | h1
      · cases h1
      · rcases ih l2 h1 with h2 | h2
        · exact Or.inl (List.mem_cons_of_mem _ h2)
        · right
          intro p hp
          rcases List.mem_cons.mp hp with h3 | h3
          · cases h3
          · exact h2 p h3
    | MoveOp.linkOp q r =>
      rw [List.cons_append] at h
      simp only [runOps] at h
      rcases List.mem_cons.mp h with h1 | h1
      · cases h1
      · rcases ih l2 h1 with h2 | h2
        · exact Or.inl (List.mem_cons_of_mem _ h2)
        · right
          intro p hp
          rcases List.mem_cons.mp hp with h3 | h3
          · cases h3
          · exact h2 p h3
    | MoveOp.unlinkOp q =>
      rw [List.cons_append] at h
      simp only [runOps] at h
      rcases List.mem_cons.mp h with h1 | h1
      · exact Or.inl (by rw [h1]; exact List.mem_cons_self _ _)
      · rcases ih l2 h1 with h2 | h2
        · exact Or.inl (List.mem_cons_of_mem _ h2)
        · right
          intro p hp
          rcases List.mem_cons.mp hp with h3 | h3
          · cases h3
          · exact h2 p h3

/-- Counterexample to C1 as stated: with two newly created ancestors
(`a/b` and `a/b/c` below an existing `a`), `atomic_move` fsyncs the parents
of the new ancestors starting from the shallowest one (first `a`, then
`a/b`), not "in order from the deepest ancestor upward" (`a/b` then `a`) as
the claim asserts. -/
theorem claim_c1_counterexample :
    fsyncTargets (atomic_move_ops (fun p => decide (p.length ≤ 1))
        ["s", "x.txt"] ["a", "b", "c", "f.txt"]) ≠
      claimedFsyncOrder (fun p => decide (p.length ≤ 1))
        ["s", "x.txt"] ["a", "b", "c", "f.txt"] := by
  decide

/-- C1 (amended): after the hard link, `atomic_move` fsyncs the parent of
every newly created ancestor of `dest.parent` in order from the shallowest
newly created ancestor downward (the reverse of `dirs_to_sync_parents_of`),
then fsyncs `dest.parent`, unlinks `src`, and fsyncs `src.parent` — so when
`src.parent = dest.parent` that directory is fsynced twice; and if fsyncing
the parent of any newly created ancestor fails, the procedure aborts before
`src` is unlinked. -/
theorem claim_c1 (ex fsyncOk : List String → Bool) (src dst : List String) :
    fsyncTargets (atomic_move_ops ex src dst) =
      (collectNewDirs ex (parentDir dst)).reverse.map (fun d => parentDir d)
        ++ [parentDir dst, parentDir src]
  ∧ (parentDir src = parentDir dst →
      2 ≤ (fsyncTargets (atomic_move_ops ex src dst)).count (parentDir src))
  ∧ (∀ d ∈ collectNewDirs ex (parentDir dst),
      fsyncOk (parentDir d) = false →
      MoveOp.unlinkOp src ∉ runOps fsyncOk (atomic_move_ops ex src dst)) := by
  have htargets : fsyncTargets (atomic_move_ops ex src dst) =
      (collectNewDirs ex (parentDir dst)).reverse.map (fun d => parentDir d)
        ++ [parentDir dst, parentDir src] := by
    unfold atomic_move_ops
    rw [fsyncTargets_append, fsyncTargets_append, fsyncTargets_append,
      fsyncTargets_map_fsync]
    have h1 : fsyncTargets
        (if (collectNewDirs ex (parentDir dst)).isEmpty then []
         else [MoveOp.mkdirParents (parentDir dst)]) = [] := by
      split <;> rfl
    rw [h1]
    rfl
  refine ⟨htargets, ?_, ?_⟩
  · intro heq
    rw [htargets, heq]
    simp [List.count_append, List.count_cons]
  · intro d hd hf hmem
    have hassoc : atomic_move_ops ex src dst =
        ((if (collectNewDirs ex (parentDir dst)).isEmpty then []
          else [MoveOp.mkdirParents (parentDir dst)])
          ++ ([MoveOp.linkOp src dst]
            ++ (collectNewDirs ex (parentDir dst)).reverse.map
                (fun d => MoveOp.fsyncDirOp (parentDir d))))
          ++ [MoveOp.fsyncDirOp (parentDir dst), MoveOp.unlinkOp src,
              MoveOp.fsyncDirOp (parentDir src)] := by
      unfold atomic_move_ops
      simp [List.append_assoc]
    rw [hassoc] at hmem
    rcases unlink_mem_runOps fsyncOk src _ _ hmem with h1 | h1
    · rcases List.mem_append.mp h1 with h2 | h2
      · revert h2
        split <;> simp
      · rcases List.mem_cons.mp h2 with h3 | h3
        · cases h3
        · rcases List.mem_map.mp h3 with ⟨e, _, he⟩
          cases he
    · have hmemf : MoveOp.fsyncDirOp (parentDir d) ∈
          (if (collectNewDirs ex (parentDir dst)).isEmpty then []
           else [MoveOp.mkdirParents (parentDir dst)])
            ++ ([MoveOp.linkOp src dst]
              ++ (collectNewDirs ex (parentDir dst)).reverse.map
                  (fun d => MoveOp.fsyncDirOp (parentDir d))) := by
        apply List.mem_append_right
        apply List.mem_cons_of_mem
        exact List.mem_map.mpr ⟨d, List.mem_reverse.mpr hd, rfl⟩
      have := h1 _ hmemf
      rw [hf] at this
      cases this

/-- Witness for C1 (amended): concrete double-fsync of a shared parent
directory, and a concrete aborted run (fsync of `a`, the parent of newly
created ancestor `a/b`, fails) that never unlinks the source. -/
theorem claim_c1_witness :
    2 ≤ (fsyncTargets (atomic_move_ops (fun _ => true)
          ["r", "s.txt"] ["r", "d.txt"])).count
          (parentDir ["r", "s.txt"])
  ∧ MoveOp.unlinkOp ["s", "x.txt"] ∉
      runOps (fun p => decide (p ≠ ["a"]))
        (atomic_move_ops (fun p => decide (p.length ≤ 1))
          ["s", "x.txt"] ["a", "b", "c", "f.txt"]) := by
  constructor
  · exact (claim_c1 (fun _ => true) (fun _ => true)
      ["r", "s.txt"] ["r", "d.txt"]).2.1 rfl
  · exact (claim_c1 (fun p => decide (p.length ≤ 1))
      (fun p => decide (p ≠ ["a"]))
      ["s", "x.txt"] ["a", "b", "c", "f.txt"]).2.2
      ["a", "b"] (by decide) (by decide)

/- ## C7: journal reconciliation -/

lemma planned_in_recover : ∀ (entries : List RecEntry) (fs : RecFS)
    (e : RecEntry), e ∈ entries → e.phase = Phase.planned →
    (e.id, ([] : List RecAct), some Phase.failed) ∈
      (recover_from_journal fs entries).1
  | [], _, _, hmem, _ => absurd hmem (List.not_mem_nil _)
  | a :: as, fs, e, hmem, hph => by
    rcases List.mem_cons.mp hmem with heq | hmem'
    · subst heq
      simp [recover_from_journal, hph]
    · by_cases h1 : a.phase = Phase.planned
      · simp only [recover_from_journal, h1, beq_self_eq_true, if_true]
        exact List.mem_cons_of_mem _ (planned_in_recover as fs e hmem' hph)
      · by_cases h2 : a.phase = Phase.moving
        · simp only [recover_from_journal]
          rw [if_neg (by simp [h1]), if_pos (by simp [h2])]
          exact List.mem_cons_of_mem _ (planned_in_recover as _ e hmem' hph)
        · simp only [recover_from_journal]
          rw [if_neg (by simp [h1]), if_neg (by simp [h2])]
          exact planned_in_recover as fs e hmem' hph

/-- C7: during journal reconciliation, every `planned` entry is marked
failed; a `moving` entry is rolled back with no pre-existence checks —
`link(dest, source)`, fsync of source's parent, unlink of dest, fsync of
dest's parent — and marked failed on normal success; `EEXIST` on the link
(source already present) removes only dest and marks the entry failed; a
missing dest (`ENOENT`) marks the entry failed with no filesystem change;
`EXDEV` logs and leaves the entry's phase untouched for manual
intervention. -/
theorem claim_c7 (fs : RecFS) (entries : List RecEntry) (e : RecEntry)
    (src dst : List String) :
    (e ∈ entries → e.phase = Phase.planned →
      (e.id, ([] : List RecAct), some Phase.failed) ∈
        (recover_from_journal fs entries).1)
  ∧ (dst ∈ fs.files → src ∉ fs.files → fs.crossDev dst src = false →
      recover_moving fs src dst =
        ([RecAct.linkAct dst src, RecAct.fsyncAct (parentDir src),
          RecAct.unlinkAct dst, RecAct.fsyncAct (parentDir dst)],
         { files := (src :: fs.files).erase dst, crossDev := fs.crossDev },
         some Phase.failed))
  ∧ (dst ∈ fs.files → src ∈ fs.files →
      recover_moving fs src dst =
        ([RecAct.linkAct dst src, RecAct.unlinkAct dst,
          RecAct.fsyncAct (parentDir dst)],
         { files := fs.files.erase dst, crossDev := fs.crossDev },
         some Phase.failed))
  ∧ (dst ∉ fs.files →
      recover_moving fs src dst =
        ([RecAct.linkAct dst src], fs, some Phase.failed))
  ∧ (dst ∈ fs.files → src ∉ fs.files → fs.crossDev dst src = true →
      recover_moving fs src dst =
        ([RecAct.linkAct dst src, RecAct.logAct], fs, none)) := by
  refine ⟨fun hmem hph => planned_in_recover entries fs e hmem hph,
    ?_, ?_, ?_, ?_⟩
  · intro h1 h2 h3
    simp [recover_moving, tryLink, h1, h2, h3]
  · intro h1 h2
    simp [recover_moving, tryLink, h1, h2]
  · intro h1
    simp [recover_moving, tryLink, h1]
  · intro h1 h2 h3
    simp [recover_moving, tryLink, h1, h2, h3]

/-- Witness for C7: a planned entry is marked failed, and a concrete
`moving` rollback performs link-fsync-unlink-fsync and marks the entry
failed. -/
theorem claim_c7_witness :
    ((7 : Nat), ([] : List RecAct), some Phase.failed) ∈
      (recover_from_journal
        { files := [["p", "d.bin"]], crossDev := fun _ _ => false }
        [{ id := 7, source := ["s", "f.bin"], dest := ["p", "d.bin"],
           phase := Phase.planned }]).1
  ∧ recover_moving
      { files := [["p", "d.bin"]], crossDev := fun _ _ => false }
      ["s", "f.bin"] ["p", "d.bin"] =
      ([RecAct.linkAct ["p", "d.bin"] ["s", "f.bin"],
        RecAct.fsyncAct (parentDir ["s", "f.bin"]),
        RecAct.unlinkAct ["p", "d.bin"],
        RecAct.fsyncAct (parentDir ["p", "d.bin"])],
       { files := (["s", "f.bin"] :: [["p", "d.bin"]]).erase ["p", "d.bin"],
         crossDev := fun _ _ => false },
       some Phase.failed) := by
  constructor
  · exact (claim_c7 { files := [["p", "d.bin"]], crossDev := fun _ _ => false }
      [{ id := 7, source := ["s", "f.bin"], dest := ["p", "d.bin"],
         phase := Phase.planned }]
      { id := 7, source := ["s", "f.bin"], dest := ["p", "d.bin"],
        phase := Phase.planned } [] []).1
      (List.mem_singleton.mpr rfl) rfl
  · exact (claim_c7 { files := [["p", "d.bin"]], crossDev := fun _ _ => false }
      [] { id := 7, source := ["s", "f.bin"], dest := ["p", "d.bin"],
           phase := Phase.planned }
      ["s", "f.bin"] ["p", "d.bin"]).2.1 (by decide) (by decide) rfl

/- ## C8: emergency-orphan import -/

lemma mem_remaining_parse_none (parse : String → Option OrphanRec)
    (onDisk : String → Bool) :
    ∀ (lines : List String) (t : String),
      t ∈ (import_orphan_lines parse onDisk lines).2.1 → parse t = none
  | [], t, h => absurd h (List.not_mem_nil _)
  | l :: ls, t, h => by
    simp only [import_orphan_lines] at h
    by_cases hb : stripLine l = ""
    · rw [if_pos hb] at h
      exact mem_remaining_parse_none parse onDisk ls t h
    · rw [if_neg hb] at h
      cases hp : parse (stripLine l) with
      | none =>
        simp only [hp] at h
        rcases List.mem_cons.mp h with heq | h2
        · rw [heq]
          exact hp
        · exact mem_remaining_parse_none parse onDisk ls t h2
      | some o =>
        simp only [hp] at h
        by_cases hd : onDisk o.orphanPath
        · rw [if_pos hd] at h
          exact mem_remaining_parse_none parse onDisk ls t h
        · rw [if_neg hd] at h
          exact mem_remaining_parse_none parse onDisk ls t h

lemma parse_ok_imported (parse : String → Option OrphanRec)
    (onDisk : String → Bool) :
    ∀ (lines : List String) (l : String) (o : OrphanRec), l ∈ lines →
      stripLine l ≠ "" → parse (stripLine l) = some o → onDisk o.orphanPath = true →
      o ∈ (import_orphan_lines parse onDisk lines).2.2
  | [], _, _, hmem, _, _, _ => absurd hmem (List.not_mem_nil _)
  | a :: ls, l, o, hmem, hnb, hp, hd => by
    simp only [import_orphan_lines]
    rcases List.mem_cons.mp hmem with heq | hmem'
    · subst heq
      rw [if_neg hnb]
      simp only [hp, hd, if_true]
      exact List.mem_cons_self _ _
    · by_cases hb : stripLine a = ""
      · rw [if_pos hb]
        exact parse_ok_imported parse onDisk ls l o hmem' hnb hp hd
      · rw [if_neg hb]
        cases hp2 : parse (stripLine a) with
        | none =>
          exact parse_ok_imported parse onDisk ls l o hmem' hnb hp hd
        | some o2 =>
          by_cases hd2 : onDisk o2.orphanPath
          · simp only [hd2, if_true]
            exact List.mem_cons_of_mem _
              (parse_ok_imported parse onDisk ls l o hmem' hnb hp hd)
          · simp only [hd2, if_false]
            exact parse_ok_imported parse onDisk ls l o hmem' hnb hp hd

lemma parse_none_kept (parse : String → Option OrphanRec)
    (onDisk : String → Bool) :
    ∀ (lines : List String) (l : String), l ∈ lines → stripLine l ≠ "" →
      parse (stripLine l) = none →
      stripLine l ∈ (import_orphan_lines parse onDisk lines).2.1
  | [], _, hmem, _, _ => absurd hmem (List.not_mem_nil _)
  | a :: ls, l, hmem, hnb, hp => by
    simp only [import_orphan_lines]
    rcases List.mem_cons.mp hmem with heq | hmem'
    · subst heq
      rw [if_neg hnb]
      simp only [hp]
      exact List.mem_cons_self _ _
    · by_cases hb : stripLine a = ""
      · rw [if_pos hb]
        exact parse_none_kept parse onDisk ls l hmem' hnb hp
      · rw [if_neg hb]
        cases hp2 : parse (stripLine a) with
        | none =>
          exact List.mem_cons_of_mem _
            (parse_none_kept parse onDisk ls l hmem' hnb hp)
        | some o2 =>
          by_cases hd2 : onDisk o2.orphanPath
          · simp only [hd2, if_true]
            exact parse_none_kept parse onDisk ls l hmem' hnb hp
          · simp only [hd2, if_false]
            exact parse_none_kept parse onDisk ls l hmem' hnb hp

lemma all_imported_remaining_nil (parse : String → Option OrphanRec)
    (onDisk : String → Bool) :
    ∀ (lines : List String),
      (∀ l ∈ lines, stripLine l ≠ "" →
        ∃ o, parse (stripLine l) = some o ∧ onDisk o.orphanPath = true) →
      (import_orphan_lines parse onDisk lines).2.1 = []
  | [], _ => rfl
  | a :: ls, hall => by
    simp only [import_orphan_lines]
    have hrest := all_imported_remaining_nil parse onDisk ls
      (fun l hl => hall l (List.mem_cons_of_mem _ hl))
    by_cases hb : stripLine a = ""
    · rw [if_pos hb]
      exact hrest
    · rw [if_neg hb]
      rcases hall a (List.mem_cons_self _ _) hb with ⟨o, hp, hd⟩
      simp only [hp, hd, if_true]
      exact hrest

lemma imported_pos (parse : String → Option OrphanRec)
    (onDisk : String → Bool) :
    ∀ (lines : List String) (l : String) (o : OrphanRec), l ∈ lines →
      stripLine l ≠ "" → parse (stripLine l) = some o → onDisk o.orphanPath = true →
      0 < (import_orphan_lines parse onDisk lines).1
  | [], _, _, hmem, _, _, _ => absurd hmem (List.not_mem_nil _)
  | a :: ls, l, o, hmem, hnb, hp, hd => by
    simp only [import_orphan_lines]
    rcases List.mem_cons.mp hmem with heq | hmem'
    · subst heq
      rw [if_neg hnb]
      simp only [hp, hd, if_true]
      exact Nat.succ_pos _
    · by_cases hb : stripLine a = ""
      · rw [if_pos hb]
        exact imported_pos parse onDisk ls l o hmem' hnb hp hd
      · rw [if_neg hb]
        cases hp2 : parse (stripLine a) with
        | none =>
          exact imported_pos parse onDisk ls l o hmem' hnb hp hd
        | some o2 =>
          by_cases hd2 : onDisk o2.orphanPath
          · simp only [hd2, if_true]
            exact Nat.succ_pos _
          · simp only [hd2, if_false]
            exact imported_pos parse onDisk ls l o hmem' hnb hp hd

/-- C8: every parseable side-log line whose orphan path still exists is
inserted into the orphan registry and dropped from the side-log; every
unparseable line is kept; when lines remain they are rewritten crash-safely
(sibling `.tmp`, fsync file, fsync directory, rename over the original,
fsync directory again); when the file's lines (at least one) were all
imported, the file is deleted and the directory fsynced. -/
theorem claim_c8 (parse : String → Option OrphanRec) (onDisk : String → Bool)
    (lines : List String) (l : String) (o : OrphanRec) :
    (l ∈ lines → stripLine l ≠ "" → parse (stripLine l) = some o →
      onDisk o.orphanPath = true →
      o ∈ (import_orphan_lines parse onDisk lines).2.2
      ∧ stripLine l ∉ (import_orphan_lines parse onDisk lines).2.1)
  ∧ (l ∈ lines → stripLine l ≠ "" → parse (stripLine l) = none →
      stripLine l ∈ (import_orphan_lines parse onDisk lines).2.1)
  ∧ ((import_orphan_lines parse onDisk lines).2.1 ≠ [] →
      import_file_epilogue (import_orphan_lines parse onDisk lines).1
          (import_orphan_lines parse onDisk lines).2.1 =
        [SideLogAct.writeTmp (import_orphan_lines parse onDisk lines).2.1,
         SideLogAct.fsyncTmpFile, SideLogAct.fsyncDirAct,
         SideLogAct.renameTmpOverOriginal, SideLogAct.fsyncDirAct])
  ∧ ((∀ l2 ∈ lines, stripLine l2 ≠ "" →
        ∃ o2, parse (stripLine l2) = some o2 ∧ onDisk o2.orphanPath = true) →
      l ∈ lines → stripLine l ≠ "" →
      import_file_epilogue (import_orphan_lines parse onDisk lines).1
          (import_orphan_lines parse onDisk lines).2.1 =
        [SideLogAct.deleteFile, SideLogAct.fsyncDirAct]) := by
  refine ⟨?_, ?_, ?_, ?_⟩
  · intro hmem hnb hp hd
    refine ⟨parse_ok_imported parse onDisk lines l o hmem hnb hp hd, ?_⟩
    intro hbad
    have := mem_remaining_parse_none parse onDisk lines (stripLine l) hbad
    rw [hp] at this
    cases this
  · exact fun hmem hnb hp => parse_none_kept parse onDisk lines l hmem hnb hp
  · intro hne
    have hfalse : (import_orphan_lines parse onDisk lines).2.1.isEmpty =
        false := by
      cases hrem : (import_orphan_lines parse onDisk lines).2.1 with
      | nil => exact absurd hrem hne
      | cons a as => rfl
    simp [import_file_epilogue, hfalse]
  · intro hall hmem hnb
    have hnil := all_imported_remaining_nil parse onDisk lines hall
    rcases hall l hmem hnb with ⟨o2, hp2, hd2⟩
    have hpos := imported_pos parse onDisk lines l o2 hmem hnb hp2 hd2
    simp [import_file_epilogue, hnil, hpos]

/-- Witness for C8 on a concrete two-line side-log: a parseable line whose
orphan exists is imported and dropped, a malformed line is kept, and the
remaining line is rewritten via the tmp-fsync-rename-fsync sequence. -/
theorem claim_c8_witness :
    ({ originalPath := "/o", orphanPath := "/p", fileSize := 4 } : OrphanRec) ∈
      (import_orphan_lines
        (fun s => if s = "good" then
            some { originalPath := "/o", orphanPath := "/p", fileSize := 4 }
          else none)
        (fun _ => true) ["good", "bad line"]).2.2
  ∧ "bad line" ∈
      (import_orphan_lines
        (fun s => if s = "good" then
            some { originalPath := "/o", orphanPath := "/p", fileSize := 4 }
          else none)
        (fun _ => true) ["good", "bad line"]).2.1
  ∧ import_file_epilogue
      (import_orphan_lines
        (fun s => if s = "good" then
            some { originalPath := "/o", orphanPath := "/p", fileSize := 4 }
          else none)
        (fun _ => true) ["good", "bad line"]).1
      (import_orphan_lines
        (fun s => if s = "good" then
            some { originalPath := "/o", orphanPath := "/p", fileSize := 4 }
          else none)
        (fun _ => true) ["good", "bad line"]).2.1 =
      [SideLogAct.writeTmp ["bad line"], SideLogAct.fsyncTmpFile,
       SideLogAct.fsyncDirAct, SideLogAct.renameTmpOverOriginal,
       SideLogAct.fsyncDirAct] := by
  have h1 := (claim_c8
    (fun s => if s = "good" then
        some { originalPath := "/o", orphanPath := "/p", fileSize := 4 }
      else none)
    (fun _ => true) ["good", "bad line"] "good"
    { originalPath := "/o", orphanPath := "/p", fileSize := 4 }).1
    (by decide) (by decide) (by decide) rfl
  have h2 := (claim_c8
    (fun s => if s = "good" then
        some { originalPath := "/o", orphanPath := "/p", fileSize := 4 }
      else none)
    (fun _ => true) ["good", "bad line"] "bad line"
    { originalPath := "/o", orphanPath := "/p", fileSize := 4 }).2.1
    (by decide) (by decide) (by decide)
  have h3 := (claim_c8
    (fun s => if s = "good" then
        some { originalPath := "/o", orphanPath := "/p", fileSize := 4 }
      else none)
    (fun _ => true) ["good", "bad line"] "bad line"
    { originalPath := "/o", orphanPath := "/p", fileSize := 4 }).2.2.1
    (by decide)
  refine ⟨by simpa using h1.1, by simpa using h2, ?_⟩
  have hrem : (import_orphan_lines
      (fun s => if s = "good" then
          some { originalPath := "/o", orphanPath := "/p", fileSize := 4 }
        else none)
      (fun _ => true) ["good", "bad line"]).2.1 = ["bad line"] := by decide
  rw [hrem] at h3 ⊢
  exact h3

/- ## State-preservation and lookup-congruence lemmas -/

lemma add_size_fulls (st : EngState) (s : Nat) :
    (add_size st s).fulls = st.fulls := by
  unfold add_size
  split <;> rfl

lemma add_size_files (st : EngState) (s : Nat) :
    (add_size st s).files = st.files := by
  unfold add_size
  split <;> rfl

lemma add_size_journal (st : EngState) (s : Nat) :
    (add_size st s).journal = st.journal := by
  unfold add_size
  split <;> rfl

lemma add_size_orphans (st : EngState) (s : Nat) :
    (add_size st s).orphans = st.orphans := by
  unfold add_size
  split <;> rfl

lemma add_fringe_fulls (st : EngState) (a b : Nat) (p : String) :
    (add_fringe st a b p).2.fulls = st.fulls := by
  unfold add_fringe
  cases fringe_lookup st a b <;> rfl

lemma add_fringe_files (st : EngState) (a b : Nat) (p : String) :
    (add_fringe st a b p).2.files = st.files := by
  unfold add_fringe
  cases fringe_lookup st a b <;> rfl

lemma add_fringe_journal (st : EngState) (a b : Nat) (p : String) :
    (add_fringe st a b p).2.journal = st.journal := by
  unfold add_fringe
  cases fringe_lookup st a b <;> rfl

lemma add_fringe_orphans (st : EngState) (a b : Nat) (p : String) :
    (add_fringe st a b p).2.orphans = st.orphans := by
  unfold add_fringe
  cases fringe_lookup st a b <;> rfl

lemma add_orphan_files (st : EngState) (a b : String) (n : Nat) :
    (add_orphan st a b n).files = st.files := by
  unfold add_orphan
  split <;> rfl

lemma add_orphan_fulls (st : EngState) (a b : String) (n : Nat) :
    (add_orphan st a b n).fulls = st.fulls := by
  unfold add_orphan
  split <;> rfl

lemma add_orphan_journal (st : EngState) (a b : String) (n : Nat) :
    (add_orphan st a b n).journal = st.journal := by
  unfold add_orphan
  split <;> rfl

lemma full_lookup_find_none {st : EngState} {x : Nat}
    (h : full_lookup st x = none) :
    st.fulls.find? (fun e => e.1 == x) = none := by
  unfold full_lookup at h
  cases hh : st.fulls.find? (fun e => e.1 == x) with
  | none => rfl
  | some e =>
    rw [hh] at h
    cases h

lemma full_lookup_find_some {st : EngState} {x : Nat} {q : String}
    (h : full_lookup st x = some q) :
    ∃ e, st.fulls.find? (fun e => e.1 == x) = some e ∧ e.2 = q := by
  unfold full_lookup at h
  cases hh : st.fulls.find? (fun e => e.1 == x) with
  | none =>
    rw [hh] at h
    cases h
  | some e =>
    rw [hh] at h
    exact ⟨e, rfl, by injection h⟩

lemma journal_map_id (st : EngState) (jid : Nat) (ph : Phase)
    (h : ∀ e ∈ st.journal, e.id ≠ jid) :
    st.journal.map
      (fun e => if e.id == jid then { e with phase := ph } else e) =
    st.journal := by
  have := List.map_congr_left (f := fun e : JEntry =>
      if e.id == jid then { e with phase := ph } else e) (g := id)
    (l := st.journal) (fun e he => by simp [h e he])
  rw [this, List.map_id]

/- ## Characterizations of `_register_unique` -/

lemma register_nostore_ok (orc : Oracles) (st : EngState) (fp : String)
    (size : Nat) (frOpt fuOpt : Option Nat) (tier : Nat)
    (hfu : full_lookup st (fuOpt.getD (orc.fullHash fp)) = none) :
    (register_unique orc ⟨none⟩ st fp size frOpt fuOpt tier).1 =
      Outcome.ok { path := fp, originalPath := fp,
                   result := DedupeResult.unique, tier := tier,
                   storedPath := none }
  ∧ (register_unique orc ⟨none⟩ st fp size frOpt fuOpt tier).2.2 =
      ⟨if frOpt.isNone then 1 else 0, if fuOpt.isNone then 1 else 0⟩ := by
  constructor <;>
    simp [register_unique, phase3, add_full, full_lookup, add_size_fulls,
      add_fringe_fulls, full_lookup_find_none hfu]

lemma register_store_ok (orc : Oracles) (root : String) (st : EngState)
    (fp : String) (size : Nat) (frOpt fuOpt : Option Nat) (tier : Nat)
    (hmv : orc.moveRes fp (root ++ "/" ++ orc.destFor fuOpt 0) = MoveRes.ok)
    (hfu : full_lookup st
      (fuOpt.getD (orc.fullHash (root ++ "/" ++ orc.destFor fuOpt 0))) =
      none) :
    (register_unique orc ⟨some root⟩ st fp size frOpt fuOpt tier).1 =
      Outcome.ok { path := root ++ "/" ++ orc.destFor fuOpt 0,
                   originalPath := fp, result := DedupeResult.unique,
                   tier := tier,
                   storedPath := some (root ++ "/" ++ orc.destFor fuOpt 0) }
  ∧ (register_unique orc ⟨some root⟩ st fp size frOpt fuOpt tier).2.2 =
      ⟨if frOpt.isNone then 1 else 0, if fuOpt.isNone then 1 else 0⟩ := by
  constructor <;>
    simp [register_unique, phase12go, maxRetries, journal_move, phase3,
      applyMove, update_move_phase, add_full, full_lookup, add_size_fulls,
      add_fringe_fulls, hmv, full_lookup_find_none hfu]

lemma register_store_conflict_revok (orc : Oracles) (root : String)
    (st : EngState) (fp : String) (size : Nat) (frOpt : Option Nat)
    (fu : Nat) (q : String) (tier : Nat)
    (hmv1 : orc.moveRes fp (root ++ "/" ++ orc.destFor (some fu) 0) =
      MoveRes.ok)
    (hmv2 : orc.moveRes (root ++ "/" ++ orc.destFor (some fu) 0) fp =
      MoveRes.ok)
    (hconf : full_lookup st fu = some q)
    (hids : ∀ e ∈ st.journal, e.id < st.nextId) :
    register_unique orc ⟨some root⟩ st fp size frOpt (some fu) tier =
      (Outcome.ok { path := fp, originalPath := fp,
                    result := DedupeResult.duplicate, tier := 3,
                    duplicateOf := some q },
       { files := fp :: st.files.erase fp,
         sizes := st.sizes, fringes := st.fringes, fulls := st.fulls,
         orphans := st.orphans,
         journal :=
           { id := st.nextId + 1,
             source := root ++ "/" ++ orc.destFor (some fu) 0,
             dest := fp, size := size, phase := Phase.completed } ::
           { id := st.nextId, source := fp,
             dest := root ++ "/" ++ orc.destFor (some fu) 0, size := size,
             phase := Phase.failed } :: st.journal,
         nextId := st.nextId + 2 },
       ⟨if frOpt.isNone then 1 else 0, 0⟩) := by
  obtain ⟨e0, hfind, he2⟩ := full_lookup_find_some hconf
  have hmapA : st.journal.map (fun e =>
      if e.id == st.nextId then { e with phase := Phase.moving } else e) =
      st.journal :=
    journal_map_id st _ _ (fun e he => Nat.ne_of_lt (hids e he))
  have hmapB : st.journal.map (fun e =>
      if e.id == st.nextId + 1 then { e with phase := Phase.moving } else e) =
      st.journal :=
    journal_map_id st _ _ (fun e he => by have := hids e he; omega)
  have hmapC : st.journal.map (fun e =>
      if e.id == st.nextId + 1 then { e with phase := Phase.completed }
      else e) = st.journal :=
    journal_map_id st _ _ (fun e he => by have := hids e he; omega)
  have hmapD : st.journal.map (fun e =>
      if e.id == st.nextId then { e with phase := Phase.failed } else e) =
      st.journal :=
    journal_map_id st _ _ (fun e he => Nat.ne_of_lt (hids e he))
  simp [register_unique, phase12go, maxRetries, journal_move, phase3,
    applyMove, update_move_phase, add_full, full_lookup, add_size_fulls,
    add_fringe_fulls, add_size_files, add_fringe_files, add_size_journal,
    add_fringe_journal, add_size_orphans, add_fringe_orphans,
    handle_duplicate_conflict, handle_move_rollback, hmv1, hmv2, hfind, he2,
    hmapA, hmapB, hmapC, hmapD]
  refine (List.map_congr_left fun e he => ?_).trans (List.map_id _)
  have h := hids e he
  simp only [Function.comp_apply, id_eq]
  rw [if_neg (show ¬ e.id = st.nextId by omega)]
  rw [if_neg (show ¬ e.id = st.nextId + 1 by omega)]
  rw [if_neg (show ¬ e.id = st.nextId + 1 by omega)]
  rw [if_neg (show ¬ e.id = st.nextId by omega)]

lemma register_store_conflict_revfail (orc : Oracles) (root : String)
    (st : EngState) (fp : String) (size : Nat) (frOpt : Option Nat)
    (fu : Nat) (q : String) (tier : Nat) (m : String)
    (hmv1 : orc.moveRes fp (root ++ "/" ++ orc.destFor (some fu) 0) =
      MoveRes.ok)
    (hmv2 : orc.moveRes (root ++ "/" ++ orc.destFor (some fu) 0) fp =
      MoveRes.err m)
    (hconf : full_lookup st fu = some q)
    (hids : ∀ e ∈ st.journal, e.id < st.nextId)
    (horph : st.orphans.any
      (fun o => o.2.1 == root ++ "/" ++ orc.destFor (some fu) 0) = false) :
    register_unique orc ⟨some root⟩ st fp size frOpt (some fu) tier =
      (Outcome.ok { path := fp, originalPath := fp,
                    result := DedupeResult.duplicate, tier := 3,
                    duplicateOf := some q },
       { files := (root ++ "/" ++ orc.destFor (some fu) 0) ::
           st.files.erase fp,
         sizes := st.sizes, fringes := st.fringes, fulls := st.fulls,
         orphans := (fp, root ++ "/" ++ orc.destFor (some fu) 0, size) ::
           st.orphans,
         journal :=
           { id := st.nextId + 1,
             source := root ++ "/" ++ orc.destFor (some fu) 0,
             dest := fp, size := size, phase := Phase.failed } ::
           { id := st.nextId, source := fp,
             dest := root ++ "/" ++ orc.destFor (some fu) 0, size := size,
             phase := Phase.failed } :: st.journal,
         nextId := st.nextId + 2 },
       ⟨if frOpt.isNone then 1 else 0, 0⟩) := by
  obtain ⟨e0, hfind, he2⟩ := full_lookup_find_some hconf
  have hmapA : st.journal.map (fun e =>
      if e.id == st.nextId then { e with phase := Phase.moving } else e) =
      st.journal :=
    journal_map_id st _ _ (fun e he => Nat.ne_of_lt (hids e he))
  have hmapB : st.journal.map (fun e =>
      if e.id == st.nextId + 1 then { e with phase := Phase.moving } else e) =
      st.journal :=
    journal_map_id st _ _ (fun e he => by have := hids e he; omega)
  have hmapC : st.journal.map (fun e =>
      if e.id == st.nextId + 1 then { e with phase := Phase.failed }
      else e) = st.journal :=
    journal_map_id st _ _ (fun e he => by have := hids e he; omega)
  have hmapD : st.journal.map (fun e =>
      if e.id == st.nextId then { e with phase := Phase.failed } else e) =
      st.journal :=
    journal_map_id st _ _ (fun e he => Nat.ne_of_lt (hids e he))
  simp [register_unique, phase12go, maxRetries, journal_move, phase3,
    applyMove, update_move_phase, add_full, add_orphan, full_lookup,
    add_size_fulls, add_fringe_fulls, add_size_files, add_fringe_files,
    add_size_journal, add_fringe_journal, add_size_orphans,
    add_fringe_orphans, handle_duplicate_conflict, handle_move_rollback,
    hmv1, hmv2, hfind, he2, horph, hmapA, hmapB, hmapC, hmapD]
  refine (List.map_congr_left fun e he => ?_).trans (List.map_id _)
  have h := hids e he
  simp only [Function.comp_apply, id_eq]
  rw [if_neg (show ¬ e.id = st.nextId by omega)]
  rw [if_neg (show ¬ e.id = st.nextId + 1 by omega)]
  rw [if_neg (show ¬ e.id = st.nextId + 1 by omega)]
  rw [if_neg (show ¬ e.id = st.nextId by omega)]

/- ## C3: duplicate-conflict compensation -/

/-- C3: when the phase-3 `add_full` insert reports a conflict while
registering a UNIQUE candidate (content store configured, file already
moved), the engine rolls the phase-3 transaction back (size / fringe /
full relations unchanged), moves the file back to its original path under
a new compensating journal row, marks the compensating row completed and
the original row failed, and returns a DUPLICATE result whose
`duplicate_of` is the path found by `full_lookup`; afterwards no journal
row is in an incomplete phase (given none was before). -/
theorem claim_c3 (orc : Oracles) (root : String) (st : EngState)
    (fp : String) (size : Nat) (frOpt : Option Nat) (fu : Nat) (q : String)
    (tier : Nat)
    (hmv1 : orc.moveRes fp (root ++ "/" ++ orc.destFor (some fu) 0) =
      MoveRes.ok)
    (hmv2 : orc.moveRes (root ++ "/" ++ orc.destFor (some fu) 0) fp =
      MoveRes.ok)
    (hconf : full_lookup st fu = some q)
    (hids : ∀ e ∈ st.journal, e.id < st.nextId)
    (hclean : ∀ e ∈ st.journal,
      e.phase = Phase.completed ∨ e.phase = Phase.failed) :
    (register_unique orc ⟨some root⟩ st fp size frOpt (some fu) tier).1 =
      Outcome.ok { path := fp, originalPath := fp,
                   result := DedupeResult.duplicate, tier := 3,
                   duplicateOf := some q }
  ∧ fp ∈
      (register_unique orc ⟨some root⟩ st fp size frOpt (some fu)
        tier).2.1.files
  ∧ (register_unique orc ⟨some root⟩ st fp size frOpt (some fu)
      tier).2.1.fulls = st.fulls
  ∧ (register_unique orc ⟨some root⟩ st fp size frOpt (some fu)
      tier).2.1.sizes = st.sizes
  ∧ (register_unique orc ⟨some root⟩ st fp size frOpt (some fu)
      tier).2.1.fringes = st.fringes
  ∧ (∃ e ∈ (register_unique orc ⟨some root⟩ st fp size frOpt (some fu)
        tier).2.1.journal,
      e.id = st.nextId ∧ e.source = fp
        ∧ e.dest = root ++ "/" ++ orc.destFor (some fu) 0
        ∧ e.phase = Phase.failed)
  ∧ (∃ e ∈ (register_unique orc ⟨some root⟩ st fp size frOpt (some fu)
        tier).2.1.journal,
      e.id = st.nextId + 1
        ∧ e.source = root ++ "/" ++ orc.destFor (some fu) 0
        ∧ e.dest = fp ∧ e.phase = Phase.completed)
  ∧ ∀ e ∈ (register_unique orc ⟨some root⟩ st fp size frOpt (some fu)
        tier).2.1.journal,
      e.phase = Phase.completed ∨ e.phase = Phase.failed := by
  have hR := register_store_conflict_revok orc root st fp size frOpt fu q
    tier hmv1 hmv2 hconf hids
  rw [hR]
  refine ⟨rfl, List.mem_cons_self _ _, rfl, rfl, rfl, ?_, ?_, ?_⟩
  · exact ⟨_, List.mem_cons_of_mem _ (List.mem_cons_self _ _),
      rfl, rfl, rfl, rfl⟩
  · exact ⟨_, List.mem_cons_self _ _, rfl, rfl, rfl, rfl⟩
  · intro e he
    rcases List.mem_cons.mp he with heq | he1
    · left
      rw [heq]
    · rcases List.mem_cons.mp he1 with heq | he2
      · right
        rw [heq]
      · exact hclean e he2

/-- Witness for C3: a concrete conflicted registration returns DUPLICATE of
the stored path and restores the source file. -/
theorem claim_c3_witness :
    (register_unique
      { fringeHash := fun _ => 5, fullHash := fun _ => 9, resolve := id,
        destFor := fun _ _ => "aa/bb", moveRes := fun _ _ => MoveRes.ok }
      ⟨some "/store"⟩
      { files := ["/src/f"], sizes := [3],
        fringes := [(5, 3, "/store/aa/old")],
        fulls := [(9, "/store/aa/old")], orphans := [], journal := [],
        nextId := 0 }
      "/src/f" 3 (some 5) (some 9) 3).1 =
      Outcome.ok { path := "/src/f", originalPath := "/src/f",
                   result := DedupeResult.duplicate, tier := 3,
                   duplicateOf := some "/store/aa/old" }
  ∧ "/src/f" ∈
      (register_unique
        { fringeHash := fun _ => 5, fullHash := fun _ => 9, resolve := id,
          destFor := fun _ _ => "aa/bb", moveRes := fun _ _ => MoveRes.ok }
        ⟨some "/store"⟩
        { files := ["/src/f"], sizes := [3],
          fringes := [(5, 3, "/store/aa/old")],
          fulls := [(9, "/store/aa/old")], orphans := [], journal := [],
          nextId := 0 }
        "/src/f" 3 (some 5) (some 9) 3).2.1.files := by
  have h := claim_c3
    { fringeHash := fun _ => 5, fullHash := fun _ => 9, resolve := id,
      destFor := fun _ _ => "aa/bb", moveRes := fun _ _ => MoveRes.ok }
    "/store"
    { files := ["/src/f"], sizes := [3],
      fringes := [(5, 3, "/store/aa/old")],
      fulls := [(9, "/store/aa/old")], orphans := [], journal := [],
      nextId := 0 }
    "/src/f" 3 (some 5) 9 "/store/aa/old" 3 rfl rfl (by decide)
    (by intro e he; cases he) (by intro e he; cases he)
  exact ⟨h.1, h.2.1⟩

/- ## C9: DUPLICATE results and the source file -/

/-- Counterexample to C9 as stated: when the compensating reverse move of
the duplicate-conflict path fails, the engine still returns a DUPLICATE
classification although the source file does not exist at its original
path any more (it is stranded at the destination and recorded as an
orphan). -/
theorem claim_c9_counterexample :
    (register_unique
      { fringeHash := fun _ => 5, fullHash := fun _ => 9, resolve := id,
        destFor := fun _ _ => "aa/bb",
        moveRes := fun s _ => if s = "/src/f" then MoveRes.ok
          else MoveRes.err "io" }
      ⟨some "/store"⟩
      { files := ["/src/f"], sizes := [3],
        fringes := [(5, 3, "/store/aa/old")],
        fulls := [(9, "/store/aa/old")], orphans := [], journal := [],
        nextId := 0 }
      "/src/f" 3 (some 5) (some 9) 3).1 =
      Outcome.ok { path := "/src/f", originalPath := "/src/f",
                   result := DedupeResult.duplicate, tier := 3,
                   duplicateOf := some "/store/aa/old" }
  ∧ "/src/f" ∉
      (register_unique
        { fringeHash := fun _ => 5, fullHash := fun _ => 9, resolve := id,
          destFor := fun _ _ => "aa/bb",
          moveRes := fun s _ => if s = "/src/f" then MoveRes.ok
            else MoveRes.err "io" }
        ⟨some "/store"⟩
        { files := ["/src/f"], sizes := [3],
          fringes := [(5, 3, "/store/aa/old")],
          fulls := [(9, "/store/aa/old")], orphans := [], journal := [],
          nextId := 0 }
        "/src/f" 3 (some 5) (some 9) 3).2.1.files := by
  constructor
  · decide
  · decide

/-- C9 (amended): a direct tier-3 DUPLICATE leaves the engine state (and
hence the source file) entirely unchanged; on the duplicate-conflict path
the source is restored before returning when the compensating move
succeeds; when the compensating move fails, a DUPLICATE result is still
returned while the file remains at the destination, is absent from its
original path, and is recorded in the orphan registry. -/
theorem claim_c9 (orc : Oracles) (cfg : Config) (root : String)
    (st : EngState) (fp p q m : String) (size fu : Nat)
    (frOpt : Option Nat) (tier : Nat) :
    (size ≠ 0 → size_exists st size = true →
      fringe_lookup st (orc.fringeHash fp) size = some p →
      full_lookup st (orc.fullHash fp) = some q →
      orc.resolve q ≠ orc.resolve fp →
      (process_file_core orc cfg st fp size).1 =
        Outcome.ok { path := fp, originalPath := fp,
                     result := DedupeResult.duplicate, tier := 3,
                     duplicateOf := some q }
      ∧ (process_file_core orc cfg st fp size).2.1 = st)
  ∧ (orc.moveRes fp (root ++ "/" ++ orc.destFor (some fu) 0) = MoveRes.ok →
      orc.moveRes (root ++ "/" ++ orc.destFor (some fu) 0) fp =
        MoveRes.ok →
      full_lookup st fu = some q →
      (∀ e ∈ st.journal, e.id < st.nextId) →
      (register_unique orc ⟨some root⟩ st fp size frOpt (some fu)
        tier).1 =
        Outcome.ok { path := fp, originalPath := fp,
                     result := DedupeResult.duplicate, tier := 3,
                     duplicateOf := some q }
      ∧ fp ∈ (register_unique orc ⟨some root⟩ st fp size frOpt (some fu)
          tier).2.1.files)
  ∧ (orc.moveRes fp (root ++ "/" ++ orc.destFor (some fu) 0) = MoveRes.ok →
      orc.moveRes (root ++ "/" ++ orc.destFor (some fu) 0) fp =
        MoveRes.err m →
      full_lookup st fu = some q →
      (∀ e ∈ st.journal, e.id < st.nextId) →
      st.orphans.any
        (fun o => o.2.1 == root ++ "/" ++ orc.destFor (some fu) 0) =
        false →
      st.files.Nodup →
      fp ≠ root ++ "/" ++ orc.destFor (some fu) 0 →
      (register_unique orc ⟨some root⟩ st fp size frOpt (some fu)
        tier).1 =
        Outcome.ok { path := fp, originalPath := fp,
                     result := DedupeResult.duplicate, tier := 3,
                     duplicateOf := some q }
      ∧ (root ++ "/" ++ orc.destFor (some fu) 0) ∈
          (register_unique orc ⟨some root⟩ st fp size frOpt (some fu)
            tier).2.1.files
      ∧ fp ∉ (register_unique orc ⟨some root⟩ st fp size frOpt (some fu)
          tier).2.1.files
      ∧ (fp, root ++ "/" ++ orc.destFor (some fu) 0, size) ∈
          (register_unique orc ⟨some root⟩ st fp size frOpt (some fu)
            tier).2.1.orphans) := by
  refine ⟨?_, ?_, ?_⟩
  · intro hsz hse hfr hfl hres
    constructor <;>
      simp [process_file_core, beq_eq_false_iff_ne.mpr hsz, hse, hfr, hfl,
        beq_eq_false_iff_ne.mpr hres]
  · intro hmv1 hmv2 hconf hids
    have hR := register_store_conflict_revok orc root st fp size frOpt fu q
      tier hmv1 hmv2 hconf hids
    rw [hR]
    exact ⟨rfl, List.mem_cons_self _ _⟩
  · intro hmv1 hmv2 hconf hids horph hnodup hne
    have hR := register_store_conflict_revfail orc root st fp size frOpt fu
      q tier m hmv1 hmv2 hconf hids horph
    rw [hR]
    refine ⟨rfl, List.mem_cons_self _ _, ?_, List.mem_cons_self _ _⟩
    intro hbad
    rcases List.mem_cons.mp hbad with heq | hmem
    · exact hne heq
    · exact ((List.Nodup.mem_erase_iff hnodup).mp hmem).1 rfl

/-- Witness for C9 (amended): a concrete direct tier-3 duplicate leaves the
state untouched, and a concrete failed compensation strands the file at
the destination while recording an orphan. -/
theorem claim_c9_witness :
    ((process_file_core
        { fringeHash := fun _ => 5, fullHash := fun _ => 9, resolve := id,
          destFor := fun _ _ => "aa/bb", moveRes := fun _ _ => MoveRes.ok }
        ⟨none⟩
        { files := ["/src/f"], sizes := [3],
          fringes := [(5, 3, "/store/aa/old")],
          fulls := [(9, "/store/aa/old")], orphans := [], journal := [],
          nextId := 0 }
        "/src/f" 3).1 =
      Outcome.ok { path := "/src/f", originalPath := "/src/f",
                   result := DedupeResult.duplicate, tier := 3,
                   duplicateOf := some "/store/aa/old" })
  ∧ ("/src/f", "/store/aa/bb", 3) ∈
      (register_unique
        { fringeHash := fun _ => 5, fullHash := fun _ => 9, resolve := id,
          destFor := fun _ _ => "aa/bb",
          moveRes := fun s _ => if s = "/src/f" then MoveRes.ok
            else MoveRes.err "io" }
        ⟨some "/store"⟩
        { files := ["/src/f"], sizes := [3],
          fringes := [(5, 3, "/store/aa/old")],
          fulls := [(9, "/store/aa/old")], orphans := [], journal := [],
          nextId := 0 }
        "/src/f" 3 (some 5) (some 9) 3).2.1.orphans := by
  constructor
  · exact ((claim_c9
      { fringeHash := fun _ => 5, fullHash := fun _ => 9, resolve := id,
        destFor := fun _ _ => "aa/bb", moveRes := fun _ _ => MoveRes.ok }
      ⟨none⟩ "/store"
      { files := ["/src/f"], sizes := [3],
        fringes := [(5, 3, "/store/aa/old")],
        fulls := [(9, "/store/aa/old")], orphans := [], journal := [],
        nextId := 0 }
      "/src/f" "/store/aa/old" "/store/aa/old" "io" 3 9 (some 5) 3).1
      (by decide) rfl rfl rfl (by decide)).1
  · exact ((claim_c9
      { fringeHash := fun _ => 5, fullHash := fun _ => 9, resolve := id,
        destFor := fun _ _ => "aa/bb",
        moveRes := fun s _ => if s = "/src/f" then MoveRes.ok
          else MoveRes.err "io" }
      ⟨some "/store"⟩ "/store"
      { files := ["/src/f"], sizes := [3],
        fringes := [(5, 3, "/store/aa/old")],
        fulls := [(9, "/store/aa/old")], orphans := [], journal := [],
        nextId := 0 }
      "/src/f" "/store/aa/old" "/store/aa/old" "io" 3 9 (some 5) 3).2.2
      (by decide) (by decide) rfl (by intro e he; cases he) rfl
      (by decide) (by decide)).2.2.2

/- ## C2: tier-ordered short-circuit classification -/

/-- C2: for a validated candidate, the classifier short-circuits in tier
order — size 0 is SKIPPED at tier 0; an unseen size is UNIQUE at tier 1
with no digest computed for classification; an unseen fringe digest is
UNIQUE at tier 2; an unseen full digest is UNIQUE at tier 3; a stored path
canonicalizing to the candidate is UNIQUE at tier 3 (self-scan); a
different stored path is DUPLICATE of that path.  (Registration is assumed
to succeed: all moves succeed and, for the UNIQUE branches, the computed
full digest is not already indexed.) -/
theorem claim_c2 (orc : Oracles) (cfg : Config) (st : EngState)
    (fp p q : String) (size : Nat)
    (hmv : ∀ s d, orc.moveRes s d = MoveRes.ok) :
    (size = 0 →
      (process_file_core orc cfg st fp size).1 =
        Outcome.ok { path := fp, originalPath := fp,
                     result := DedupeResult.skipped, tier := 0 })
  ∧ (size ≠ 0 → size_exists st size = false →
      (∀ x, full_lookup st (orc.fullHash x) = none) →
      ∃ r, (process_file_core orc cfg st fp size).1 = Outcome.ok r
        ∧ r.result = DedupeResult.unique ∧ r.tier = 1
        ∧ (process_file_core orc cfg st fp size).2.2.1 = ⟨0, 0⟩)
  ∧ (size ≠ 0 → size_exists st size = true →
      fringe_lookup st (orc.fringeHash fp) size = none →
      (∀ x, full_lookup st (orc.fullHash x) = none) →
      ∃ r, (process_file_core orc cfg st fp size).1 = Outcome.ok r
        ∧ r.result = DedupeResult.unique ∧ r.tier = 2)
  ∧ (size ≠ 0 → size_exists st size = true →
      fringe_lookup st (orc.fringeHash fp) size = some p →
      full_lookup st (orc.fullHash fp) = none →
      ∃ r, (process_file_core orc cfg st fp size).1 = Outcome.ok r
        ∧ r.result = DedupeResult.unique ∧ r.tier = 3)
  ∧ (size ≠ 0 → size_exists st size = true →
      fringe_lookup st (orc.fringeHash fp) size = some p →
      full_lookup st (orc.fullHash fp) = some q →
      orc.resolve q = orc.resolve fp →
      (process_file_core orc cfg st fp size).1 =
        Outcome.ok { path := fp, originalPath := fp,
                     result := DedupeResult.unique, tier := 3,
                     storedPath := some fp })
  ∧ (size ≠ 0 → size_exists st size = true →
      fringe_lookup st (orc.fringeHash fp) size = some p →
      full_lookup st (orc.fullHash fp) = some q →
      orc.resolve q ≠ orc.resolve fp →
      (process_file_core orc cfg st fp size).1 =
        Outcome.ok { path := fp, originalPath := fp,
                     result := DedupeResult.duplicate, tier := 3,
                     duplicateOf := some q }) := by
  obtain ⟨pd⟩ := cfg
  refine ⟨?_, ?_, ?_, ?_, ?_, ?_⟩
  · intro h0
    subst h0
    simp [process_file_core]
  · intro hsz hse hnc
    cases pd with
    | none =>
      have h := register_nostore_ok orc st fp size none none 1 (hnc fp)
      refine ⟨{ path := fp, originalPath := fp,
                result := DedupeResult.unique, tier := 1,
                storedPath := none }, ?_, rfl, rfl, ?_⟩
      · simp [process_file_core, beq_eq_false_iff_ne.mpr hsz, hse]
        exact h.1
      · simp [process_file_core, beq_eq_false_iff_ne.mpr hsz, hse]
    | some root =>
      have h := register_store_ok orc root st fp size none none 1
        (hmv fp _) (hnc _)
      refine ⟨{ path := root ++ "/" ++ orc.destFor none 0,
                originalPath := fp, result := DedupeResult.unique,
                tier := 1,
                storedPath := some (root ++ "/" ++ orc.destFor none 0) },
        ?_, rfl, rfl, ?_⟩
      · simp [process_file_core, beq_eq_false_iff_ne.mpr hsz, hse]
        exact h.1
      · simp [process_file_core, beq_eq_false_iff_ne.mpr hsz, hse]
  · intro hsz hse hfr hnc
    cases pd with
    | none =>
      have h := register_nostore_ok orc st fp size (some (orc.fringeHash fp))
        none 2 (hnc fp)
      refine ⟨{ path := fp, originalPath := fp,
                result := DedupeResult.unique, tier := 2,
                storedPath := none }, ?_, rfl, rfl⟩
      simp [process_file_core, beq_eq_false_iff_ne.mpr hsz, hse, hfr]
      exact h.1
    | some root =>
      have h := register_store_ok orc root st fp size
        (some (orc.fringeHash fp)) none 2 (hmv fp _) (hnc _)
      refine ⟨{ path := root ++ "/" ++ orc.destFor none 0,
                originalPath := fp, result := DedupeResult.unique,
                tier := 2,
                storedPath := some (root ++ "/" ++ orc.destFor none 0) },
        ?_, rfl, rfl⟩
      simp [process_file_core, beq_eq_false_iff_ne.mpr hsz, hse, hfr]
      exact h.1
  · intro hsz hse hfr hfl
    cases pd with
    | none =>
      have h := register_nostore_ok orc st fp size (some (orc.fringeHash fp))
        (some (orc.fullHash fp)) 3 hfl
      refine ⟨{ path := fp, originalPath := fp,
                result := DedupeResult.unique, tier := 3,
                storedPath := none }, ?_, rfl, rfl⟩
      simp [process_file_core, beq_eq_false_iff_ne.mpr hsz, hse, hfr, hfl]
      exact h.1
    | some root =>
      have h := register_store_ok orc root st fp size
        (some (orc.fringeHash fp)) (some (orc.fullHash fp)) 3
        (hmv fp _) hfl
      refine ⟨{ path := root ++ "/" ++
                  orc.destFor (some (orc.fullHash fp)) 0,
                originalPath := fp, result := DedupeResult.unique,
                tier := 3,
                storedPath := some (root ++ "/" ++
                  orc.destFor (some (orc.fullHash fp)) 0) },
        ?_, rfl, rfl⟩
      simp [process_file_core, beq_eq_false_iff_ne.mpr hsz, hse, hfr, hfl]
      exact h.1
  · intro hsz hse hfr hfl hres
    simp [process_file_core, beq_eq_false_iff_ne.mpr hsz, hse, hfr, hfl,
      hres]
  · intro hsz hse hfr hfl hres
    simp [process_file_core, beq_eq_false_iff_ne.mpr hsz, hse, hfr, hfl,
      beq_eq_false_iff_ne.mpr hres]

/-- Witness for C2: concrete runs hitting the tier-1 and the DUPLICATE
branches. -/
theorem claim_c2_witness :
    (∃ r, (process_file_core
        { fringeHash := fun _ => 5, fullHash := fun _ => 9, resolve := id,
          destFor := fun _ _ => "aa/bb", moveRes := fun _ _ => MoveRes.ok }
        ⟨none⟩
        { files := ["/a"], sizes := [], fringes := [], fulls := [],
          orphans := [], journal := [], nextId := 0 }
        "/a" 7).1 = Outcome.ok r
      ∧ r.result = DedupeResult.unique ∧ r.tier = 1
      ∧ (process_file_core
          { fringeHash := fun _ => 5, fullHash := fun _ => 9, resolve := id,
            destFor := fun _ _ => "aa/bb",
            moveRes := fun _ _ => MoveRes.ok }
          ⟨none⟩
          { files := ["/a"], sizes := [], fringes := [], fulls := [],
            orphans := [], journal := [], nextId := 0 }
          "/a" 7).2.2.1 = ⟨0, 0⟩)
  ∧ (process_file_core
      { fringeHash := fun _ => 5, fullHash := fun _ => 9, resolve := id,
        destFor := fun _ _ => "aa/bb", moveRes := fun _ _ => MoveRes.ok }
      ⟨none⟩
      { files := ["/b"], sizes := [7], fringes := [(5, 7, "/a")],
        fulls := [(9, "/a")], orphans := [], journal := [], nextId := 0 }
      "/b" 7).1 =
      Outcome.ok { path := "/b", originalPath := "/b",
                   result := DedupeResult.duplicate, tier := 3,
                   duplicateOf := some "/a" } := by
  constructor
  · exact (claim_c2
      { fringeHash := fun _ => 5, fullHash := fun _ => 9, resolve := id,
        destFor := fun _ _ => "aa/bb", moveRes := fun _ _ => MoveRes.ok }
      ⟨none⟩
      { files := ["/a"], sizes := [], fringes := [], fulls := [],
        orphans := [], journal := [], nextId := 0 }
      "/a" "" "" 7 (fun _ _ => rfl)).2.1 (by decide) rfl
      (fun x => rfl)
  · exact (claim_c2
      { fringeHash := fun _ => 5, fullHash := fun _ => 9, resolve := id,
        destFor := fun _ _ => "aa/bb", moveRes := fun _ _ => MoveRes.ok }
      ⟨none⟩
      { files := ["/b"], sizes := [7], fringes := [(5, 7, "/a")],
        fulls := [(9, "/a")], orphans := [], journal := [], nextId := 0 }
      "/b" "/a" "/a" 7 (fun _ _ => rfl)).2.2.2.2.2 (by decide) rfl rfl rfl
      (by decide)

/- ## C4: ProcessResult path / stored_path discipline -/

/-- Counterexample to C4 as stated: the UNIQUE-at-tier-3 self-scan result
sets `stored_path` to the candidate path even when no content store is
configured, so `stored_path` is not absent there. -/
theorem claim_c4_counterexample :
    (process_file_core
      { fringeHash := fun _ => 5, fullHash := fun _ => 9, resolve := id,
        destFor := fun _ _ => "aa/bb", moveRes := fun _ _ => MoveRes.ok }
      ⟨none⟩
      { files := ["/a/f"], sizes := [3], fringes := [(5, 3, "/a/f")],
        fulls := [(9, "/a/f")], orphans := [], journal := [], nextId := 0 }
      "/a/f" 3).1 =
      Outcome.ok { path := "/a/f", originalPath := "/a/f",
                   result := DedupeResult.unique, tier := 3,
                   storedPath := some "/a/f" }
  ∧ (some "/a/f" : Option String) ≠ none := by
  constructor
  · decide
  · decide

/-- C4 (amended): a SKIPPED or DUPLICATE result carries
`path = original_path` and no `stored_path`; a UNIQUE registration without
a content store carries `path = original_path` and no `stored_path`; with
a content store a move occurred and `path` equals the `stored_path` value;
the one exception is the UNIQUE-at-tier-3 self-scan result, which sets
`stored_path` to the candidate path (still equal to `path` and
`original_path`) even when no content store is configured. -/
theorem claim_c4 (orc : Oracles) (cfg : Config) (root : String)
    (st : EngState) (fp p q : String) (size : Nat)
    (frOpt fuOpt : Option Nat) (tier : Nat) :
    (size = 0 →
      (process_file_core orc cfg st fp size).1 =
        Outcome.ok { path := fp, originalPath := fp,
                     result := DedupeResult.skipped, tier := 0,
                     storedPath := none })
  ∧ (full_lookup st (fuOpt.getD (orc.fullHash fp)) = none →
      (register_unique orc ⟨none⟩ st fp size frOpt fuOpt tier).1 =
        Outcome.ok { path := fp, originalPath := fp,
                     result := DedupeResult.unique, tier := tier,
                     storedPath := none })
  ∧ (orc.moveRes fp (root ++ "/" ++ orc.destFor fuOpt 0) = MoveRes.ok →
      full_lookup st
        (fuOpt.getD (orc.fullHash (root ++ "/" ++ orc.destFor fuOpt 0))) =
        none →
      (register_unique orc ⟨some root⟩ st fp size frOpt fuOpt tier).1 =
        Outcome.ok { path := root ++ "/" ++ orc.destFor fuOpt 0,
                     originalPath := fp, result := DedupeResult.unique,
                     tier := tier,
                     storedPath :=
                       some (root ++ "/" ++ orc.destFor fuOpt 0) })
  ∧ (size ≠ 0 → size_exists st size = true →
      fringe_lookup st (orc.fringeHash fp) size = some p →
      full_lookup st (orc.fullHash fp) = some q →
      orc.resolve q = orc.resolve fp →
      (process_file_core orc cfg st fp size).1 =
        Outcome.ok { path := fp, originalPath := fp,
                     result := DedupeResult.unique, tier := 3,
                     storedPath := some fp })
  ∧ (size ≠ 0 → size_exists st size = true →
      fringe_lookup st (orc.fringeHash fp) size = some p →
      full_lookup st (orc.fullHash fp) = some q →
      orc.resolve q ≠ orc.resolve fp →
      (process_file_core orc cfg st fp size).1 =
        Outcome.ok { path := fp, originalPath := fp,
                     result := DedupeResult.duplicate, tier := 3,
                     storedPath := none, duplicateOf := some q }) := by
  refine ⟨?_, ?_, ?_, ?_, ?_⟩
  · intro h0
    subst h0
    simp [process_file_core]
  · intro hfu
    exact (register_nostore_ok orc st fp size frOpt fuOpt tier hfu).1
  · intro hmv hfu
    exact (register_store_ok orc root st fp size frOpt fuOpt tier hmv hfu).1
  · intro hsz hse hfr hfl hres
    simp [process_file_core, beq_eq_false_iff_ne.mpr hsz, hse, hfr, hfl,
      hres]
  · intro hsz hse hfr hfl hres
    simp [process_file_core, beq_eq_false_iff_ne.mpr hsz, hse, hfr, hfl,
      beq_eq_false_iff_ne.mpr hres]

/-- Witness for C4 (amended): with a content store, a concrete registered
UNIQUE result has `path` equal to the `stored_path` value; without one,
`stored_path` is absent. -/
theorem claim_c4_witness :
    (register_unique
      { fringeHash := fun _ => 5, fullHash := fun _ => 9, resolve := id,
        destFor := fun _ _ => "aa/bb", moveRes := fun _ _ => MoveRes.ok }
      ⟨some "/store"⟩
      { files := ["/a"], sizes := [], fringes := [], fulls := [],
        orphans := [], journal := [], nextId := 0 }
      "/a" 7 none none 1).1 =
      Outcome.ok { path := "/store" ++ "/" ++ "aa/bb",
                   originalPath := "/a", result := DedupeResult.unique,
                   tier := 1, storedPath := some ("/store" ++ "/" ++ "aa/bb") }
  ∧ (register_unique
      { fringeHash := fun _ => 5, fullHash := fun _ => 9, resolve := id,
        destFor := fun _ _ => "aa/bb", moveRes := fun _ _ => MoveRes.ok }
      ⟨none⟩
      { files := ["/a"], sizes := [], fringes := [], fulls := [],
        orphans := [], journal := [], nextId := 0 }
      "/a" 7 none none 1).1 =
      Outcome.ok { path := "/a", originalPath := "/a",
                   result := DedupeResult.unique, tier := 1,
                   storedPath := none } := by
  constructor
  · exact (claim_c4
      { fringeHash := fun _ => 5, fullHash := fun _ => 9, resolve := id,
        destFor := fun _ _ => "aa/bb", moveRes := fun _ _ => MoveRes.ok }
      ⟨none⟩ "/store"
      { files := ["/a"], sizes := [], fringes := [], fulls := [],
        orphans := [], journal := [], nextId := 0 }
      "/a" "" "" 7 none none 1).2.2.1 rfl rfl
  · exact (claim_c4
      { fringeHash := fun _ => 5, fullHash := fun _ => 9, resolve := id,
        destFor := fun _ _ => "aa/bb", moveRes := fun _ _ => MoveRes.ok }
      ⟨none⟩ "/store"
      { files := ["/a"], sizes := [], fringes := [], fulls := [],
        orphans := [], journal := [], nextId := 0 }
      "/a" "" "" 7 none none 1).2.1 rfl

/- ## C5: digest computations per tier -/

/-- Counterexample to C5 as stated: a candidate classified UNIQUE at tier 1
does have its fringe and full digests computed — phase 3 of registration
computes every digest that is still missing, so the total digest work is
one fringe and one full computation, not zero. -/
theorem claim_c5_counterexample :
    (process_file_core
      { fringeHash := fun _ => 5, fullHash := fun _ => 9, resolve := id,
        destFor := fun _ _ => "aa/bb", moveRes := fun _ _ => MoveRes.ok }
      ⟨none⟩
      { files := ["/a"], sizes := [], fringes := [], fulls := [],
        orphans := [], journal := [], nextId := 0 }
      "/a" 7).1 =
      Outcome.ok { path := "/a", originalPath := "/a",
                   result := DedupeResult.unique, tier := 1,
                   storedPath := none }
  ∧ (process_file_core
      { fringeHash := fun _ => 5, fullHash := fun _ => 9, resolve := id,
        destFor := fun _ _ => "aa/bb", moveRes := fun _ _ => MoveRes.ok }
      ⟨none⟩
      { files := ["/a"], sizes := [], fringes := [], fulls := [],
        orphans := [], journal := [], nextId := 0 }
      "/a" 7).2.2.2 = ⟨1, 1⟩
  ∧ ¬ ((1 : Nat) = 0) := by
  refine ⟨by decide, by decide, by decide⟩

/-- C5 (amended): classification itself computes exactly the digests of
tiers ≤ k (none at tiers 0-1, the fringe digest at tier 2, both at
tier 3), but registering a UNIQUE candidate computes every digest still
missing during phase 3, so a tier-1 UNIQUE candidate incurs one fringe and
one full computation and a tier-2 UNIQUE candidate one further full
computation; no digest is ever computed twice, and DUPLICATE / self-scan
candidates incur no phase-3 hashing. -/
theorem claim_c5 (orc : Oracles) (cfg : Config) (st : EngState)
    (fp p q : String) (size : Nat)
    (hmv : ∀ s d, orc.moveRes s d = MoveRes.ok) :
    (size = 0 →
      (process_file_core orc cfg st fp size).2.2.1 = ⟨0, 0⟩
      ∧ (process_file_core orc cfg st fp size).2.2.2 = ⟨0, 0⟩)
  ∧ (size ≠ 0 → size_exists st size = false →
      (∀ x, full_lookup st (orc.fullHash x) = none) →
      (process_file_core orc cfg st fp size).2.2.1 = ⟨0, 0⟩
      ∧ (process_file_core orc cfg st fp size).2.2.2 = ⟨1, 1⟩)
  ∧ (size ≠ 0 → size_exists st size = true →
      fringe_lookup st (orc.fringeHash fp) size = none →
      (∀ x, full_lookup st (orc.fullHash x) = none) →
      (process_file_core orc cfg st fp size).2.2.1 = ⟨1, 0⟩
      ∧ (process_file_core orc cfg st fp size).2.2.2 = ⟨0, 1⟩)
  ∧ (size ≠ 0 → size_exists st size = true →
      fringe_lookup st (orc.fringeHash fp) size = some p →
      full_lookup st (orc.fullHash fp) = none →
      (process_file_core orc cfg st fp size).2.2.1 = ⟨1, 1⟩
      ∧ (process_file_core orc cfg st fp size).2.2.2 = ⟨0, 0⟩)
  ∧ (size ≠ 0 → size_exists st size = true →
      fringe_lookup st (orc.fringeHash fp) size = some p →
      full_lookup st (orc.fullHash fp) = some q →
      (process_file_core orc cfg st fp size).2.2.1 = ⟨1, 1⟩
      ∧ (process_file_core orc cfg st fp size).2.2.2 = ⟨0, 0⟩) := by
  obtain ⟨pd⟩ := cfg
  refine ⟨?_, ?_, ?_, ?_, ?_⟩
  · intro h0
    subst h0
    simp [process_file_core]
  · intro hsz hse hnc
    cases pd with
    | none =>
      have h := register_nostore_ok orc st fp size none none 1 (hnc fp)
      constructor <;>
        simp [process_file_core, beq_eq_false_iff_ne.mpr hsz, hse, h.2]
    | some root =>
      have h := register_store_ok orc root st fp size none none 1
        (hmv fp _) (hnc _)
      constructor <;>
        simp [process_file_core, beq_eq_false_iff_ne.mpr hsz, hse, h.2]
  · intro hsz hse hfr hnc
    cases pd with
    | none =>
      have h := register_nostore_ok orc st fp size (some (orc.fringeHash fp))
        none 2 (hnc fp)
      constructor <;>
        simp [process_file_core, beq_eq_false_iff_ne.mpr hsz, hse, hfr, h.2]
    | some root =>
      have h := register_store_ok orc root st fp size
        (some (orc.fringeHash fp)) none 2 (hmv fp _) (hnc _)
      constructor <;>
        simp [process_file_core, beq_eq_false_iff_ne.mpr hsz, hse, hfr, h.2]
  · intro hsz hse hfr hfl
    cases pd with
    | none =>
      have h := register_nostore_ok orc st fp size (some (orc.fringeHash fp))
        (some (orc.fullHash fp)) 3 hfl
      constructor <;>
        simp [process_file_core, beq_eq_false_iff_ne.mpr hsz, hse, hfr, hfl,
          h.2]
    | some root =>
      have h := register_store_ok orc root st fp size
        (some (orc.fringeHash fp)) (some (orc.fullHash fp)) 3
        (hmv fp _) hfl
      constructor <;>
        simp [process_file_core, beq_eq_false_iff_ne.mpr hsz, hse, hfr, hfl,
          h.2]
  · intro hsz hse hfr hfl
    by_cases hres : orc.resolve q = orc.resolve fp
    · constructor <;>
        simp [process_file_core, beq_eq_false_iff_ne.mpr hsz, hse, hfr, hfl,
          hres]
    · constructor <;>
        simp [process_file_core, beq_eq_false_iff_ne.mpr hsz, hse, hfr, hfl,
          beq_eq_false_iff_ne.mpr hres]

/-- Witness for C5 (amended): concrete tier-1 and tier-3 runs with their
exact classification / registration digest counts. -/
theorem claim_c5_witness :
    ((process_file_core
        { fringeHash := fun _ => 5, fullHash := fun _ => 9, resolve := id,
          destFor := fun _ _ => "aa/bb", moveRes := fun _ _ => MoveRes.ok }
        ⟨none⟩
        { files := ["/a"], sizes := [], fringes := [], fulls := [],
          orphans := [], journal := [], nextId := 0 }
        "/a" 7).2.2.1 = ⟨0, 0⟩
      ∧ (process_file_core
          { fringeHash := fun _ => 5, fullHash := fun _ => 9, resolve := id,
            destFor := fun _ _ => "aa/bb",
            moveRes := fun _ _ => MoveRes.ok }
          ⟨none⟩
          { files := ["/a"], sizes := [], fringes := [], fulls := [],
            orphans := [], journal := [], nextId := 0 }
          "/a" 7).2.2.2 = ⟨1, 1⟩)
  ∧ ((process_file_core
        { fringeHash := fun _ => 5, fullHash := fun _ => 9, resolve := id,
          destFor := fun _ _ => "aa/bb", moveRes := fun _ _ => MoveRes.ok }
        ⟨none⟩
        { files := ["/b"], sizes := [7], fringes := [(5, 7, "/a")],
          fulls := [(9, "/a")], orphans := [], journal := [], nextId := 0 }
        "/b" 7).2.2.1 = ⟨1, 1⟩
      ∧ (process_file_core
          { fringeHash := fun _ => 5, fullHash := fun _ => 9, resolve := id,
            destFor := fun _ _ => "aa/bb",
            moveRes := fun _ _ => MoveRes.ok }
          ⟨none⟩
          { files := ["/b"], sizes := [7], fringes := [(5, 7, "/a")],
            fulls := [(9, "/a")], orphans := [], journal := [], nextId := 0 }
          "/b" 7).2.2.2 = ⟨0, 0⟩) := by
  constructor
  · exact (claim_c5
      { fringeHash := fun _ => 5, fullHash := fun _ => 9, resolve := id,
        destFor := fun _ _ => "aa/bb", moveRes := fun _ _ => MoveRes.ok }
      ⟨none⟩
      { files := ["/a"], sizes := [], fringes := [], fulls := [],
        orphans := [], journal := [], nextId := 0 }
      "/a" "" "" 7 (fun _ _ => rfl)).2.1 (by decide) rfl (fun x => rfl)
  · exact (claim_c5
      { fringeHash := fun _ => 5, fullHash := fun _ => 9, resolve := id,
        destFor := fun _ _ => "aa/bb", moveRes := fun _ _ => MoveRes.ok }
      ⟨none⟩
      { files := ["/b"], sizes := [7], fringes := [(5, 7, "/a")],
        fulls := [(9, "/a")], orphans := [], journal := [], nextId := 0 }
      "/b" "/a" "/a" 7 (fun _ _ => rfl)).2.2.2.2 (by decide) rfl rfl rfl

/- ## C10: totality of `process_file` -/

/-- C10: `process_file` on a connected engine is total at the public
interface — a missing file or failed validation yields a SKIPPED result,
every result is either the core body's normal result or a SKIPPED result
at tier 0 whose `path` and `original_path` equal the input path, and any
exception raised by the core body (validation, hashing, moving, or
database work) is converted into a SKIPPED result at tier 0 carrying the
exception message in `error`. -/
theorem claim_c10 (orc : Oracles) (cfg : Config) (st : EngState)
    (fp : String) (size : Nat) (fe : Bool) (v : Option String)
    (core : Outcome ProcessResult) (m : String) :
    ((process_file_core orc cfg st fp size).1 = Outcome.exn m →
      process_file true none ((process_file_core orc cfg st fp size).1)
        fp = skipped_result fp m)
  ∧ ((∃ r, core = Outcome.ok r ∧ process_file fe v core fp = r)
      ∨ ((process_file fe v core fp).result = DedupeResult.skipped
          ∧ (process_file fe v core fp).tier = 0
          ∧ (process_file fe v core fp).path = fp
          ∧ (process_file fe v core fp).originalPath = fp)) := by
  constructor
  · intro h
    rw [h]
    simp [process_file]
  · cases fe with
    | false =>
      right
      simp [process_file, skipped_result]
    | true =>
      cases v with
      | some e =>
        right
        simp [process_file, skipped_result]
      | none =>
        cases core with
        | ok r =>
          left
          exact ⟨r, rfl, by simp [process_file]⟩
        | exn m2 =>
          right
          simp [process_file, skipped_result]

/-- Witness for C10: a concrete failing move raises inside the core body
and `process_file` converts it into a SKIPPED tier-0 result carrying the
message. -/
theorem claim_c10_witness :
    process_file true none
      ((process_file_core
        { fringeHash := fun _ => 5, fullHash := fun _ => 9, resolve := id,
          destFor := fun _ _ => "aa/bb",
          moveRes := fun _ _ => MoveRes.err "disk full" }
        ⟨some "/store"⟩
        { files := ["/a"], sizes := [], fringes := [], fulls := [],
          orphans := [], journal := [], nextId := 0 }
        "/a" 7).1) "/a" = skipped_result "/a" "disk full" := by
  exact (claim_c10
    { fringeHash := fun _ => 5, fullHash := fun _ => 9, resolve := id,
      destFor := fun _ _ => "aa/bb",
      moveRes := fun _ _ => MoveRes.err "disk full" }
    ⟨some "/store"⟩
    { files := ["/a"], sizes := [], fringes := [], fulls := [],
      orphans := [], journal := [], nextId := 0 }
    "/a" 7 true none (Outcome.exn "disk full") "disk full").1 (by decide)
